import Mathlib

/-!
# Process table of the kernel (`kernel/proc.c`)

A shallow embedding of the process-management core: the table `proc[NPROC]`,
the pid counter, the lifecycle operations (`allocproc`, `freeproc`, `fork`,
`exit`, `wait`, `reparent`), `wakeup`, `kill`, the page-table dump `ps_pt` and
the introspection handlers `handle_ps`, `handle_ps_info`, `handle_ps_copy` and
`handle_ps_sleep_write`.

Conventions of the embedding.

* A `struct proc *` is a slot index into the table (`Option Nat`, `none` being
  the null pointer).  The table is a list; `NPROC` is its length.
* `int` values are integers and `uint64` and `uint` values are natural
  numbers.  The increment of the `int` pid counter is taken in 32-bit
  arithmetic (`wrap_int`), and the `uint` accounting of `sched` is reduced
  modulo 2^32.
* Calls into code outside `proc.c` (page allocator, virtual memory, file
  layer, clock) are either parameters giving the outcome of the call, or are
  recorded in a log kept in the state.
* Physical memory is a function from addresses to bytes; `walkaddr` (vm.c) is
  a parameter of `handle_ps_copy`.
* `acquire` / `release` maintain the list of spinlocks held by the executing
  CPU, and every acquisition is recorded together with the locks held at that
  moment.
-/

namespace Kproc

/-! ## Data model -/

/-- Modelled from the spec: `enum procstate` (proc.h is not among the sources);
the six states of the lifecycle state machine. -/
inductive procstate
  | UNUSED
  | USED
  | SLEEPING
  | RUNNABLE
  | RUNNING
  | ZOMBIE
  deriving DecidableEq, Repr

/-- The spinlocks this file uses: the two globals and one lock per table slot. -/
inductive spinlock
  | pid_lock
  | wait_lock
  | plock (slot : Nat)
  deriving DecidableEq, Repr

/-- A sleep channel (`void *chan`): null, the address of a table slot, or any
other kernel address. -/
inductive Chan
  | null
  | ofProc (slot : Nat)
  | addr (a : Nat)
  deriving DecidableEq, Repr

/-- The channel value of a `struct proc *`. -/
def Chan.ofPtr : Option Nat → Chan
  | none => Chan.null
  | some i => Chan.ofProc i

/-- Modelled from the spec: `struct context` (proc.h is not among the sources);
the saved kernel registers used by the core-switch primitive. -/
structure context where
  ra : Nat
  sp : Nat
  s0 : Nat
  s1 : Nat
  s2 : Nat
  s3 : Nat
  s4 : Nat
  s5 : Nat
  s6 : Nat
  s7 : Nat
  s8 : Nat
  s9 : Nat
  s10 : Nat
  s11 : Nat
  deriving DecidableEq, Repr

/-- The result of `memset(&p->context, 0, sizeof(p->context))`. -/
def context.zero : context :=
  ⟨0, 0, 0, 0, 0, 0, 0, 0, 0, 0, 0, 0, 0, 0⟩

/-- Modelled from the spec: `struct trapframe` (proc.h is not among the
sources); the saved user register image.  The registers this file names are
fields, the remaining ones are kept in `others`. -/
structure trapframe where
  epc : Nat
  sp : Nat
  a0 : Nat
  a1 : Nat
  a2 : Nat
  a7 : Nat
  others : List Nat
  deriving DecidableEq, Repr

/-- The content of `char name[16]`: a NUL-terminated string, given by its
characters before the terminator (at most 15). -/
abbrev pname := { l : List Nat // l.length < 16 }

/-- The empty name, the result of `p->name[0] = 0`. -/
def pname.empty : pname := ⟨[], by decide⟩

/-- Modelled from the spec: `struct proc` (proc.h is not among the sources),
with the fields `proc.c` reads and writes.  The per-process lock is tracked in
`Kernel.held`.  In `ofile`, index `i` holds `ofile[i]`, and an index past the end
of the list is a null entry. -/
structure proc where
  state : procstate
  chan : Chan
  killed : Int
  xstate : Int
  pid : Int
  parent : Option Nat
  kstack : Nat
  sz : Nat
  pagetable : Nat
  trapframe : Option trapframe
  context : context
  ofile : List (Option Nat)
  cwd : Option Nat
  name : pname
  init_ticks : Nat
  run_time : Nat
  last_run_start : Nat
  context_switches : Nat
  deriving DecidableEq

/-- A zero-filled record, as the table is before `procinit` (static storage). -/
def proc.zero : proc :=
  { state := procstate.UNUSED, chan := Chan.null, killed := 0, xstate := 0, pid := 0,
    parent := none, kstack := 0, sz := 0, pagetable := 0, trapframe := none,
    context := context.zero, ofile := [], cwd := none, name := pname.empty,
    init_ticks := 0, run_time := 0, last_run_start := 0, context_switches := 0 }

/-- A call into the file layer. -/
inductive fs_call
  | filedup (f : Nat)
  | fileclose (f : Nat)
  | idup (ip : Option Nat)
  | iput (ip : Option Nat)
  | fileread (f : Nat) (addr : Nat) (n : Int)
  deriving DecidableEq, Repr

/-- A successful `copyout(pagetable, dstva, src, len)`: the destination address
space, the destination address and the bytes copied. -/
structure ucopy where
  pagetable : Nat
  dstva : Nat
  data : List Nat
  deriving DecidableEq, Repr

/-- The globals of `proc.c` together with the bookkeeping of the embedding.

* `proc`, `initproc`, `nextpid`: the globals of the same names.
* `held`: the spinlocks held by the executing CPU, most recent first.
* `acquired`: every `acquire` so far, with the locks held when it was called.
* `fs`: the calls made into the file layer, oldest first.
* `out`: the successful `copyout` calls, oldest first. -/
structure Kernel where
  proc : List proc
  initproc : Option Nat
  nextpid : Int
  held : List spinlock
  acquired : List (spinlock × List spinlock)
  fs : List fs_call
  out : List ucopy
  deriving DecidableEq

/-- Constants, macros and addresses defined outside `proc.c` (param.h, riscv.h,
memlayout.h, the linker): the page size, the address of `forkret`, the kernel
stack address of each slot, the largest virtual address, the page-table index
of an address at a level, the valid bit of a page-table entry and the
physical address an entry refers to. -/
structure Consts where
  PGSIZE : Nat
  forkret : Nat
  KSTACK : Nat → Nat
  MAXVA : Nat
  PX : Nat → Nat → Nat
  PTE_V : Nat
  PTE2PA : Nat → Nat

/-- The record in slot `i`, that is `proc[i]`. -/
def Kernel.slot (k : Kernel) (i : Nat) : Kproc.proc :=
  (k.proc[i]?).getD Kproc.proc.zero

/-- Assignment to fields of `proc[i]`. -/
def Kernel.upd (k : Kernel) (i : Nat) (f : Kproc.proc → Kproc.proc) : Kernel :=
  { k with proc := k.proc.modify f i }

/-- The call `acquire(lk)`. -/
def acquire (l : spinlock) (k : Kernel) : Kernel :=
  { k with held := l :: k.held, acquired := k.acquired ++ [(l, k.held)] }

/-- The call `release(lk)`. -/
def release (l : spinlock) (k : Kernel) : Kernel :=
  { k with held := k.held.erase l }

/-- Calls made into the file layer are appended to the log. -/
def Kernel.log_fs (k : Kernel) (l : List fs_call) : Kernel :=
  { k with fs := k.fs ++ l }

/-! ## Table initialisation and slot allocation -/

/-- The function `procinit`, run on the zero-filled table of `NPROC` slots. -/
def procinit (c : Consts) (NPROC : Nat) : Kernel :=
  { proc := (List.range NPROC).map (fun i =>
      { proc.zero with
        state := procstate.UNUSED, kstack := c.KSTACK i, init_ticks := 0,
        run_time := 0, last_run_start := 0, context_switches := 0 }),
    initproc := none, nextpid := 1, held := [], acquired := [], fs := [], out := [] }

/-- The `int` that holds the result `v` of an addition of two `int` values: `v`
itself when it lies between -2^31 and 2^31 - 1, and otherwise `v` reduced modulo
2^32 into that range, which is what the 32-bit add instruction leaves in the
register (C itself leaves signed overflow undefined). -/
def wrap_int (v : Int) : Int :=
  (v + 2147483648) % 4294967296 - 2147483648

/-- The function `allocpid`; `nextpid` is an `int`, so `nextpid + 1` is taken in
32-bit arithmetic. -/
def allocpid (k : Kernel) : Int × Kernel :=
  let k1 := acquire spinlock.pid_lock k
  let pid := k1.nextpid
  let k2 := { k1 with nextpid := wrap_int (k1.nextpid + 1) }
  (pid, release spinlock.pid_lock k2)

/-- The function `freeproc`, applied to slot `i`.  The pages handed back to
the allocator (`kfree`, `proc_freepagetable`) live outside the table. -/
def freeproc (i : Nat) (k : Kernel) : Kernel :=
  k.upd i (fun p =>
    { p with
      trapframe := none, pagetable := 0, sz := 0, pid := 0, parent := none,
      name := pname.empty, chan := Chan.null, killed := 0, xstate := 0,
      state := procstate.UNUSED, init_ticks := 0 })

/-- Outcomes of the allocator calls made by `allocproc`: `kalloc` gives the
fresh trap-frame page with its content (`none` when out of memory),
`uvmcreate` the address of the new root page table (0 on failure), and the two
flags tell whether the `mappages` calls for the trampoline and the trap frame
succeeded. -/
structure AllocExt where
  kalloc : Option trapframe
  uvmcreate : Nat
  map_trampoline : Bool
  map_trapframe : Bool

/-- The function `proc_pagetable`: the new page table, or 0. -/
def proc_pagetable (e : AllocExt) : Nat :=
  if e.uvmcreate = 0 then 0
  else if e.map_trampoline = false then 0
  else if e.map_trapframe = false then 0
  else e.uvmcreate

/-- The search loop of `allocproc` over slots `i, i+1, ...` (`n` slots left):
the first UNUSED slot, returned with its lock held. -/
def allocproc_scan : Nat → Nat → Kernel → Option Nat × Kernel
  | 0, _, k => (none, k)
  | n + 1, i, k =>
    let k1 := acquire (spinlock.plock i) k
    if (k1.slot i).state = procstate.UNUSED then (some i, k1)
    else allocproc_scan n (i + 1) (release (spinlock.plock i) k1)

/-- The function `allocproc`: the claimed slot (with its lock held), or `none`. -/
def allocproc (c : Consts) (e : AllocExt) (k : Kernel) : Option Nat × Kernel :=
  match allocproc_scan k.proc.length 0 k with
  | (none, k1) => (none, k1)
  | (some i, k1) =>
    let (pid, k2) := allocpid k1
    let k3 := (k2.upd i (fun p => { p with pid := pid })).upd i
      (fun p => { p with state := procstate.USED })
    let k4 := k3.upd i (fun p => { p with trapframe := e.kalloc })
    match e.kalloc with
    | none => (none, release (spinlock.plock i) (freeproc i k4))
    | some _ =>
      let k5 := k4.upd i (fun p => { p with pagetable := proc_pagetable e })
      if proc_pagetable e = 0 then
        (none, release (spinlock.plock i) (freeproc i k5))
      else
        let k6 := k5.upd i (fun p => { p with context := context.zero })
        let k7 := k6.upd i (fun p => { p with context := { p.context with ra := c.forkret } })
        let k8 := k7.upd i (fun p =>
          { p with context := { p.context with sp := p.kstack + c.PGSIZE } })
        (some i, k8)

/-! ## Copying to user space -/

/-- The four bytes of an `int`, least significant first. -/
def int_bytes (v : Int) : List Nat :=
  let u := (v % 4294967296).toNat
  [u % 256, u / 256 % 256, u / 65536 % 256, u / 16777216 % 256]

/-- The call `copyout(pagetable, dstva, src, len)`, `src` being the `len` bytes
at the source address.  Whether the destination is writable is decided
outside `proc.c`: `ok pagetable dstva len` tells whether the call succeeds. -/
def copyout (ok : Nat → Nat → Nat → Bool) (pagetable dstva : Nat) (src : List Nat)
    (k : Kernel) : Int × Kernel :=
  if ok pagetable dstva src.length then
    (0, { k with out := k.out ++ [⟨pagetable, dstva, src⟩] })
  else (-1, k)

/-! ## Sleep and wakeup -/

/-- The loop of `wakeup` over slots `i, i+1, ...` (`n` slots left); `me` is
`myproc()`. -/
def wakeup_loop (me : Option Nat) (c : Chan) : Nat → Nat → Kernel → Kernel
  | 0, _, k => k
  | n + 1, i, k =>
    let k3 :=
      if some i ≠ me then
        let k1 := acquire (spinlock.plock i) k
        let k2 :=
          if (k1.slot i).state = procstate.SLEEPING ∧ (k1.slot i).chan = c then
            k1.upd i (fun p => { p with state := procstate.RUNNABLE })
          else k1
        release (spinlock.plock i) k2
      else k
    wakeup_loop me c n (i + 1) k3

/-- The function `wakeup`, called by process `me` (`none` outside any process). -/
def wakeup (me : Option Nat) (c : Chan) (k : Kernel) : Kernel :=
  wakeup_loop me c k.proc.length 0 k

/-- The function `sched`, up to the switch into the scheduler: the run-time
accounting (in `uint` arithmetic) and the checks on the process lock and state;
`none` is a kernel panic.  The checks on `mycpu()->noff` and `intr_get()`
concern the CPU record, which is outside the table. -/
def sched (now : Nat) (p : Nat) (k : Kernel) : Option Kernel :=
  let k1 :=
    if (k.slot p).state = procstate.SLEEPING ∨ (k.slot p).state = procstate.ZOMBIE then
      k.upd p (fun q =>
        { q with run_time :=
            (((q.run_time : Int) + ((now : Int) - (q.last_run_start : Int))) % 4294967296).toNat })
    else k
  if spinlock.plock p ∉ k1.held then none
  else if (k1.slot p).state = procstate.RUNNING then none
  else some k1

/-- The function `sleep`, up to the switch into the scheduler. -/
def sleep (now : Nat) (p : Nat) (c : Chan) (lk : spinlock) (k : Kernel) : Option Kernel :=
  let k1 := acquire (spinlock.plock p) k
  let k2 := release lk k1
  let k3 := k2.upd p (fun q => { q with chan := c })
  let k4 := k3.upd p (fun q => { q with state := procstate.SLEEPING })
  sched now p k4

/-- The rest of `sleep`, run when the process is scheduled again. -/
def sleep_resume (p : Nat) (lk : spinlock) (k : Kernel) : Kernel :=
  let k1 := k.upd p (fun q => { q with chan := Chan.null })
  acquire lk (release (spinlock.plock p) k1)

/-! ## Exit and wait -/

/-- The loop of `reparent(p)` over slots `i, i+1, ...` (`n` slots left). -/
def reparent_loop (me : Option Nat) (p : Nat) : Nat → Nat → Kernel → Kernel
  | 0, _, k => k
  | n + 1, i, k =>
    let k2 :=
      if (k.slot i).parent = some p then
        let k1 := k.upd i (fun q => { q with parent := k.initproc })
        wakeup me (Chan.ofPtr k1.initproc) k1
      else k
    reparent_loop me p n (i + 1) k2

/-- The function `reparent`, called by process `me`. -/
def reparent (me : Option Nat) (p : Nat) (k : Kernel) : Kernel :=
  reparent_loop me p k.proc.length 0 k

/-- The first part of `exit`, for the calling process `p`: every open file is
closed and the current directory is put back. -/
def exit_close (p : Nat) (k : Kernel) : Kernel :=
  let k1 := (k.log_fs (((k.slot p).ofile.filterMap id).map fs_call.fileclose)).upd p
    (fun q => { q with ofile := q.ofile.map (fun _ => none) })
  (k1.log_fs [fs_call.iput (k1.slot p).cwd]).upd p (fun q => { q with cwd := none })

/-- The body of `exit` between the check for `initproc` and the call of
`sched`, for the calling process `p`. -/
def exit_body (p : Nat) (status : Int) (k : Kernel) : Kernel :=
  let k2 := exit_close p k
  let k3 := acquire spinlock.wait_lock k2
  let k4 := reparent (some p) p k3
  let k5 := wakeup (some p) (Chan.ofPtr (k4.slot p).parent) k4
  let k6 := acquire (spinlock.plock p) k5
  let k7 := k6.upd p (fun q => { q with xstate := status })
  let k8 := k7.upd p (fun q => { q with state := procstate.ZOMBIE })
  release spinlock.wait_lock k8

/-- The function `exit`, called by process `p`, up to the switch into the
scheduler (it does not return); `none` is a kernel panic. -/
def exit (now : Nat) (p : Nat) (status : Int) (k : Kernel) : Option Kernel :=
  if some p = k.initproc then none
  else sched now p (exit_body p status k)

/-- The function `killed`. -/
def killed (p : Nat) (k : Kernel) : Int × Kernel :=
  let k1 := acquire (spinlock.plock p) k
  ((k1.slot p).killed, release (spinlock.plock p) k1)

/-- One scan of the table in `wait` over slots `i, i+1, ...` (`n` slots left):
the value returned from inside the scan if any, the flag `havekids`, and the
state. -/
def wait_scan (ok : Nat → Nat → Nat → Bool) (p addr : Nat) :
    Nat → Nat → Bool → Kernel → Option Int × Bool × Kernel
  | 0, _, havekids, k => (none, havekids, k)
  | n + 1, i, havekids, k =>
    if (k.slot i).parent = some p then
      let k1 := acquire (spinlock.plock i) k
      if (k1.slot i).state = procstate.ZOMBIE then
        let pid := (k1.slot i).pid
        let r :=
          if addr ≠ 0 then
            copyout ok (k1.slot p).pagetable addr (int_bytes (k1.slot i).xstate) k1
          else (0, k1)
        if addr ≠ 0 ∧ r.1 < 0 then
          (some (-1), true, release spinlock.wait_lock (release (spinlock.plock i) r.2))
        else
          (some pid, true,
            release spinlock.wait_lock (release (spinlock.plock i) (freeproc i r.2)))
      else wait_scan ok p addr n (i + 1) true (release (spinlock.plock i) k1)
    else wait_scan ok p addr n (i + 1) havekids k

/-- How a pass of `wait` ends: it returns a value, or the caller goes to sleep. -/
inductive WaitResult
  | ret (v : Int)
  | asleep
  deriving DecidableEq, Repr

/-- One pass of the `for(;;)` loop of `wait`, called by process `p` with
`wait_lock` held: the scan, then either a return or the call of `sleep` on the
caller itself; `none` is a kernel panic. -/
def wait_pass (ok : Nat → Nat → Nat → Bool) (now : Nat) (p addr : Nat) (k1 : Kernel) :
    Option (WaitResult × Kernel) :=
  match wait_scan ok p addr k1.proc.length 0 false k1 with
  | (some r, _, k2) => some (WaitResult.ret r, k2)
  | (none, havekids, k2) =>
    if havekids = false then some (WaitResult.ret (-1), release spinlock.wait_lock k2)
    else
      let r := killed p k2
      if r.1 ≠ 0 then some (WaitResult.ret (-1), release spinlock.wait_lock r.2)
      else (sleep now p (Chan.ofProc p) spinlock.wait_lock r.2).map
        (fun k3 => (WaitResult.asleep, k3))

/-- The function `wait`, from its entry to its first return or sleep. -/
def wait (ok : Nat → Nat → Nat → Bool) (now : Nat) (p addr : Nat) (k : Kernel) :
    Option (WaitResult × Kernel) :=
  wait_pass ok now p addr (acquire spinlock.wait_lock k)

/-- The function `wait` from the return of `sleep` on: the next pass of its loop. -/
def wait_again (ok : Nat → Nat → Nat → Bool) (now : Nat) (p addr : Nat) (k : Kernel) :
    Option (WaitResult × Kernel) :=
  wait_pass ok now p addr (sleep_resume p spinlock.wait_lock k)

/-! ## Kill -/

/-- The loop of `kill` over slots `i, i+1, ...` (`n` slots left). -/
def kill_loop (pid : Int) : Nat → Nat → Kernel → Int × Kernel
  | 0, _, k => (-1, k)
  | n + 1, i, k =>
    let k1 := acquire (spinlock.plock i) k
    if (k1.slot i).pid = pid then
      let k2 := k1.upd i (fun p => { p with killed := 1 })
      let k3 :=
        if (k2.slot i).state = procstate.SLEEPING then
          k2.upd i (fun p => { p with state := procstate.RUNNABLE })
        else k2
      (0, release (spinlock.plock i) k3)
    else kill_loop pid n (i + 1) (release (spinlock.plock i) k1)

/-- The function `kill`. -/
def kill (pid : Int) (k : Kernel) : Int × Kernel :=
  kill_loop pid k.proc.length 0 k

/-! ## Fork -/

/-- The descriptor loop of `fork`: the child's table after
`if(p->ofile[i]) np->ofile[i] = filedup(p->ofile[i])` for every index. -/
def dup_files : List (Option Nat) → List (Option Nat) → List (Option Nat)
  | [], cs => cs
  | some f :: ps, cs => some f :: dup_files ps cs.tail
  | none :: ps, cs => (cs.head?).join :: dup_files ps cs.tail

/-- The call `safestrcpy(dst, src, n)` on names: at most `n - 1` characters of
`src`, then the terminator. -/
def safestrcpy (src : pname) (n : Nat) : pname :=
  ⟨src.val.take (n - 1), by
    have h := src.property
    rw [List.length_take]
    omega⟩

/-- The function `fork`, called by process `p`.  `uvmcopy_ok` tells whether
`uvmcopy` succeeded and `now` is the value of `sys_uptime()`; `none` is a
kernel fault (a null trap-frame pointer is dereferenced). -/
def fork (c : Consts) (e : AllocExt) (uvmcopy_ok : Bool) (now : Nat) (p : Nat)
    (k : Kernel) : Option (Int × Kernel) :=
  match allocproc c e k with
  | (none, k1) => some (-1, k1)
  | (some np, k1) =>
    if uvmcopy_ok = false then
      some (-1, release (spinlock.plock np) (freeproc np k1))
    else
      let k2 := k1.upd np (fun q => { q with sz := (k1.slot p).sz })
      match (k2.slot np).trapframe, (k2.slot p).trapframe with
      | some _, some tf =>
        let k3 := k2.upd np (fun q => { q with trapframe := some tf })
        let k4 := k3.upd np (fun q =>
          { q with trapframe := q.trapframe.map (fun t => { t with a0 := 0 }) })
        let k5 := (k4.log_fs (((k4.slot p).ofile.filterMap id).map fs_call.filedup)).upd np
          (fun q => { q with ofile := dup_files (k4.slot p).ofile q.ofile })
        let k6 := (k5.log_fs [fs_call.idup (k5.slot p).cwd]).upd np
          (fun q => { q with cwd := (k5.slot p).cwd })
        let k7 := k6.upd np (fun q => { q with name := safestrcpy (k6.slot p).name 16 })
        let pid := (k7.slot np).pid
        let k8 := k7.upd np (fun q => { q with state := procstate.RUNNABLE })
        let k9 := k8.upd np (fun q =>
          { q with init_ticks := now, run_time := 0, last_run_start := 0,
                   context_switches := 0 })
        let k10 := release (spinlock.plock np) k9
        let k11 := acquire spinlock.wait_lock k10
        let k12 := k11.upd np (fun q => { q with parent := some p })
        some (pid, release spinlock.wait_lock k12)
      | _, _ => none

/-! ## Page-table dump -/

/-- The loop of `find_proc_by_pid` over slots `i, i+1, ...` (`n` slots left). -/
def find_loop (pid : Int) : Nat → Nat → Kernel → Option Nat × Kernel
  | 0, _, k => (none, k)
  | n + 1, i, k =>
    let k1 := acquire (spinlock.plock i) k
    if (k1.slot i).pid = pid then (some i, k1)
    else find_loop pid n (i + 1) (release (spinlock.plock i) k1)

/-- The function `find_proc_by_pid`: the slot, returned with its lock held. -/
def find_proc_by_pid (pid : Int) (k : Kernel) : Option Nat × Kernel :=
  find_loop pid k.proc.length 0 k

/-- The `uint64` stored at a physical address, `mem` giving each byte. -/
def read64 (mem : Nat → Nat) (a : Nat) : Nat :=
  (List.range 8).foldr (fun j acc => mem (a + j) + 256 * acc) 0

/-- The `n` bytes stored from a physical address on. -/
def read_bytes (mem : Nat → Nat) (a n : Nat) : List Nat :=
  (List.range n).map (fun j => mem (a + j))

/-- The macro `PT_SIZE`, which is `512 * sizeof(uint64)`. -/
def PT_SIZE : Nat := 512 * 8

/-- The loop `for (int i = 2; i > level; --i)` of `ps_pt`, from index `i` on:
the page table reached, or `none` when an entry on the way is not valid. -/
def ps_pt_walk (c : Consts) (mem : Nat → Nat) (addr level : Nat) : Nat → Nat → Option Nat
  | 0, pagetable => some pagetable
  | i + 1, pagetable =>
    if i + 1 > level then
      let pte := read64 mem (pagetable + 8 * c.PX (i + 1) addr)
      if pte &&& c.PTE_V ≠ 0 then ps_pt_walk c mem addr level i (c.PTE2PA pte)
      else none
    else some pagetable

/-- The function `ps_pt`, called by process `me`; `mem` is the physical memory. -/
def ps_pt (c : Consts) (ok : Nat → Nat → Nat → Bool) (mem : Nat → Nat) (me : Nat)
    (pid : Int) (table addr level : Nat) (k : Kernel) : Int × Kernel :=
  if level > 2 then (-1, k)
  else if addr > c.MAXVA then (-1, k)
  else
    match find_proc_by_pid pid k with
    | (none, k1) => (-1, k1)
    | (some p, k1) =>
      let pagetable := (k1.slot p).pagetable
      let level1 := 2 - level
      match ps_pt_walk c mem addr level1 2 pagetable with
      | none => (-1, k1)
      | some pt =>
        let r := copyout ok (k1.slot me).pagetable table (read_bytes mem pt PT_SIZE) k1
        (r.1, release (spinlock.plock p) r.2)

/-- The function `handle_ps_pt0`. -/
def handle_ps_pt0 (c : Consts) (ok : Nat → Nat → Nat → Bool) (mem : Nat → Nat) (me : Nat)
    (pid : Int) (table : Nat) (k : Kernel) : Int × Kernel :=
  ps_pt c ok mem me pid table 0 0 k

/-- The function `handle_ps_pt1`. -/
def handle_ps_pt1 (c : Consts) (ok : Nat → Nat → Nat → Bool) (mem : Nat → Nat) (me : Nat)
    (pid : Int) (table address : Nat) (k : Kernel) : Int × Kernel :=
  ps_pt c ok mem me pid table address 1 k

/-- The function `handle_ps_pt2`. -/
def handle_ps_pt2 (c : Consts) (ok : Nat → Nat → Nat → Bool) (mem : Nat → Nat) (me : Nat)
    (pid : Int) (table address : Nat) (k : Kernel) : Int × Kernel :=
  ps_pt c ok mem me pid table address 2 k

/-! ## Introspection handlers -/

/-- The value of a `uint64` converted to `int`: its low 32 bits, read as a
signed number. -/
def to_int (x : Nat) : Int :=
  if x % 4294967296 < 2147483648 then ((x % 4294967296 : Nat) : Int)
  else ((x % 4294967296 : Nat) : Int) - 4294967296

/-- The `n` bytes found at the start of a NUL-terminated string `s`: its
characters, the terminator, and then whatever follows it in memory (`pad`). -/
def str_bytes (s : List Nat) (pad : Nat → Nat) (n : Nat) : List Nat :=
  (List.range n).map (fun j =>
    if j < s.length then s.getD j 0 else if j = s.length then 0 else pad j)

/-- The table `states[]` of `handle_ps_info`: the label of each state. -/
def state_label : procstate → List Nat
  | procstate.UNUSED => [117, 110, 117, 115, 101, 100]
  | procstate.USED => [117, 115, 101, 100]
  | procstate.SLEEPING => [115, 108, 101, 101, 112, 32]
  | procstate.RUNNABLE => [114, 117, 110, 98, 108, 101]
  | procstate.RUNNING => [114, 117, 110, 32, 32, 32]
  | procstate.ZOMBIE => [122, 111, 109, 98, 105, 101]

/-- What the introspection handlers take from outside `proc.c`: the constants
`STATE_SIZE` and `NAME_SIZE` (process_info.h), `NOFILE` (param.h) and `SYS_write`
(syscall.h); the bytes that follow a string in memory (`pad`); the value
`filecount` returns; the value of `sys_uptime()`; and, for each offset, the
byte of the kernel stack found after the local variable `ptr` of
`handle_ps_sleep_write` (`stack`). -/
structure InfoExt where
  STATE_SIZE : Nat
  NAME_SIZE : Nat
  NOFILE : Int
  SYS_write : Int
  pad : Nat → Nat
  filecount : Int
  now : Nat
  stack : Nat → Nat

/-- The counting loop of `handle_ps` for `limit == -1`, over slots
`i, i+1, ...` (`n` slots left). -/
def handle_ps_count : Nat → Nat → Nat → Kernel → Nat
  | 0, _, proc_cnt, _ => proc_cnt
  | n + 1, i, proc_cnt, k =>
    if (k.slot i).state ≠ procstate.UNUSED then handle_ps_count n (i + 1) (proc_cnt + 1) k
    else handle_ps_count n (i + 1) proc_cnt k

/-- The listing loop of `handle_ps` over slots `i, i+1, ...` (`n` slots left);
`proc_cnt`, which only counts up from 0, is kept as a natural number. -/
def handle_ps_loop (ok : Nat → Nat → Nat → Bool) (me : Nat) (limit : Int) (pids : Nat) :
    Nat → Nat → Nat → Kernel → Int × Kernel
  | 0, _, proc_cnt, k => ((proc_cnt : Int), k)
  | n + 1, i, proc_cnt, k =>
    let k1 := acquire (spinlock.plock i) k
    if (k1.slot i).state ≠ procstate.UNUSED then
      let cnt1 := proc_cnt + 1
      if (cnt1 : Int) < limit then
        let r := copyout ok (k1.slot me).pagetable (pids + (cnt1 - 1) * 4)
          (int_bytes (k1.slot i).pid) k1
        if r.1 ≠ 0 then (-1, release (spinlock.plock i) r.2)
        else handle_ps_loop ok me limit pids n (i + 1) cnt1 (release (spinlock.plock i) r.2)
      else handle_ps_loop ok me limit pids n (i + 1) cnt1 (release (spinlock.plock i) k1)
    else handle_ps_loop ok me limit pids n (i + 1) proc_cnt (release (spinlock.plock i) k1)

/-- The function `handle_ps`, called by process `me`. -/
def handle_ps (ok : Nat → Nat → Nat → Bool) (me : Nat) (limit : Int) (pids : Nat)
    (k : Kernel) : Int × Kernel :=
  if limit = -1 then ((handle_ps_count k.proc.length 0 0 k : Nat), k)
  else handle_ps_loop ok me limit pids k.proc.length 0 0 k

/-- A `copyout` of `handle_ps_info` or `handle_ps_sleep_write` followed by its
check: on failure the lock of the target `p` is released and -1 returned,
otherwise the function goes on with `rest`. -/
def copyout_or_fail (ok : Nat → Nat → Nat → Bool) (pagetable dstva : Nat) (src : List Nat)
    (p : Nat) (k : Kernel) (rest : Kernel → Int × Kernel) : Int × Kernel :=
  let r := copyout ok pagetable dstva src k
  if r.1 ≠ 0 then (-1, release (spinlock.plock p) r.2) else rest r.2

/-- The part of `handle_ps_info` that reads the pid of the parent of `p` under
`wait_lock`. -/
def ps_info_parent (p : Nat) (k : Kernel) : Int × Kernel :=
  let k1 := acquire spinlock.wait_lock k
  let r :=
    match (k1.slot p).parent with
    | none => ((0 : Int), k1)
    | some q =>
      let k2 := acquire (spinlock.plock q) k1
      ((k2.slot q).pid, release (spinlock.plock q) k2)
  (r.1, release spinlock.wait_lock r.2)

/-- The function `handle_ps_info`, called by process `me`. -/
def handle_ps_info (x : InfoExt) (ok : Nat → Nat → Nat → Bool) (me : Nat) (pid : Int)
    (psinfo : Nat) (k : Kernel) : Int × Kernel :=
  match find_proc_by_pid pid k with
  | (none, k1) => (-1, k1)
  | (some p, k1) =>
    let state := (k1.slot p).state
    if state = procstate.UNUSED then (-2, release (spinlock.plock p) k1)
    else
      let pt := (k1.slot me).pagetable
      copyout_or_fail ok pt psinfo (str_bytes (state_label state) x.pad x.STATE_SIZE) p k1
        (fun k2 =>
      let ptr1 := psinfo + x.STATE_SIZE
      let par := ps_info_parent p k2
      copyout_or_fail ok pt ptr1 (int_bytes par.1) p par.2 (fun k3 =>
      let ptr2 := ptr1 + 4
      let mem_size := to_int (k3.slot p).sz
      copyout_or_fail ok pt ptr2 (int_bytes mem_size) p k3 (fun k4 =>
      let ptr3 := ptr2 + 4
      let files_count := x.filecount
      if files_count = -1 then (-1, release (spinlock.plock p) k4)
      else
      copyout_or_fail ok pt ptr3 (int_bytes files_count) p k4 (fun k5 =>
      let ptr4 := ptr3 + 4
      copyout_or_fail ok pt ptr4 (str_bytes (k5.slot p).name.val x.pad x.NAME_SIZE) p k5
        (fun k6 =>
      let ptr5 := ptr4 + x.NAME_SIZE
      let proc_ticks := (((x.now : Int) - ((k6.slot p).init_ticks : Int)) % 4294967296)
      copyout_or_fail ok pt ptr5 (int_bytes proc_ticks) p k6 (fun k7 =>
      let ptr6 := ptr5 + 4
      copyout_or_fail ok pt ptr6 (int_bytes ((k7.slot p).run_time : Int)) p k7 (fun k8 =>
      let ptr7 := ptr6 + 4
      copyout_or_fail ok pt ptr7 (int_bytes ((k8.slot p).context_switches : Int)) p k8
        (fun k9 => (0, release (spinlock.plock p) k9)))))))))

/-- The function `handle_ps_copy`, called by process `me`.  `walkaddr` is the
function of that name (vm.c): the physical address of a virtual address in a
page table, 0 when it is not mapped; `mem` is the physical memory. -/
def handle_ps_copy (ok : Nat → Nat → Nat → Bool) (walkaddr : Nat → Nat → Nat)
    (mem : Nat → Nat) (me : Nat) (pid : Int) (addr : Nat) (size : Int) (data : Nat)
    (k : Kernel) : Int × Kernel :=
  match find_proc_by_pid pid k with
  | (none, k1) => (-1, k1)
  | (some p, k1) =>
    let pagetable := (k1.slot p).pagetable
    let pa := walkaddr pagetable addr
    if pa = 0 then (-1, release (spinlock.plock p) k1)
    else
      let r := copyout ok (k1.slot me).pagetable data
        (read_bytes mem pa (size % 18446744073709551616).toNat) k1
      (r.1, release (spinlock.plock p) r.2)

/-- The `n` bytes found at the address of the local variable `ptr` of
`handle_ps_sleep_write`: the eight bytes of its value, then the stack after it. -/
def ptr_bytes (ptr : Nat) (stack : Nat → Nat) (n : Nat) : List Nat :=
  (List.range n).map (fun j => if j < 8 then ptr / 256 ^ j % 256 else stack j)

/-- The function `handle_ps_sleep_write`, called by process `me`; `none` is a
kernel fault (a null trap-frame pointer is dereferenced). -/
def handle_ps_sleep_write (x : InfoExt) (ok : Nat → Nat → Nat → Bool) (me : Nat) (pid : Int)
    (addr : Nat) (k : Kernel) : Option (Int × Kernel) :=
  let limit_buf : Int := 1024
  match find_proc_by_pid pid k with
  | (none, k1) => some (-2, k1)
  | (some p, k1) =>
    let state := (k1.slot p).state
    if state ≠ procstate.SLEEPING then
      if state = procstate.UNUSED then some (-3, release (spinlock.plock p) k1)
      else some (0, release (spinlock.plock p) k1)
    else
      match (k1.slot p).trapframe with
      | none => none
      | some tf =>
        let syscall := to_int tf.a7
        if syscall = x.SYS_write then
          let pt := (k1.slot me).pagetable
          let fd := to_int tf.a0
          some (copyout_or_fail ok pt addr (int_bytes fd) p k1 (fun k2 =>
          let addr1 := addr + 4
          if fd < 0 ∨ fd ≥ x.NOFILE ∨ (((k2.slot p).ofile[fd.toNat]?).join = none) then
            (-1, release (spinlock.plock p) k2)
          else
          let f := (((k2.slot p).ofile[fd.toNat]?).join).getD 0
          let buf_size := to_int tf.a1
          if buf_size > limit_buf then (-1, release (spinlock.plock p) k2)
          else
          copyout_or_fail ok pt addr1 (int_bytes buf_size) p k2 (fun k3 =>
          let addr2 := addr1 + 4
          let ptr := tf.a2
          let k4 := k3.log_fs [fs_call.fileread f ptr buf_size]
          copyout_or_fail ok pt addr2
            (ptr_bytes ptr x.stack (buf_size % 18446744073709551616).toNat) p k4
            (fun k5 => (syscall, release (spinlock.plock p) k5)))))
        else some (syscall, release (spinlock.plock p) k1)

/-! ## Sequences of calls -/

/-- A call of one of the lifecycle operations, with the outcomes of the
external calls it makes; `p` is the calling process. -/
inductive Op
  | allocproc (e : AllocExt)
  | freeproc (i : Nat)
  | fork (e : AllocExt) (uvmcopy_ok : Bool) (now : Nat) (p : Nat)
  | exit (now : Nat) (p : Nat) (status : Int)
  | wait (ok : Nat → Nat → Nat → Bool) (now : Nat) (p addr : Nat)
  | wait_again (ok : Nat → Nat → Nat → Bool) (now : Nat) (p addr : Nat)
  | kill (pid : Int)

/-- The state after one call; `none` when the kernel panics or faults, or when
the caller is not a process (`myproc()` is a process that has been scheduled,
so its slot is not UNUSED). -/
def step (c : Consts) : Op → Kernel → Option Kernel
  | Op.allocproc e, k => some (allocproc c e k).2
  | Op.freeproc i, k => some (freeproc i k)
  | Op.fork e u now p, k =>
    if (k.slot p).state = procstate.UNUSED then none
    else (fork c e u now p k).map Prod.snd
  | Op.exit now p status, k =>
    if (k.slot p).state = procstate.UNUSED then none else exit now p status k
  | Op.wait ok now p addr, k =>
    if (k.slot p).state = procstate.UNUSED then none
    else (wait ok now p addr k).map Prod.snd
  | Op.wait_again ok now p addr, k =>
    if (k.slot p).state = procstate.UNUSED then none
    else (wait_again ok now p addr k).map Prod.snd
  | Op.kill pid, k => some (kill pid k).2

/-- The state after a sequence of calls. -/
def run (c : Consts) : List Op → Kernel → Option Kernel
  | [], k => some k
  | op :: ops, k => (step c op k).bind (run c ops)

/-- Constants for the worked examples: 4096-byte pages, three index fields of
nine bits above a twelve-bit offset, valid bit 1. -/
def ex_consts : Consts :=
  { PGSIZE := 4096
    forkret := 2147491840
    KSTACK := fun i => 274877902848 - (i + 1) * 8192
    MAXVA := 274877906944
    PX := fun level va => (va >>> (12 + 9 * level)) &&& 511
    PTE_V := 1
    PTE2PA := fun pte => (pte >>> 10) <<< 12 }

/-- Allocator outcomes for the worked examples: every call succeeds. -/
def ex_ext : AllocExt :=
  { kalloc := some ⟨5, 5, 5, 5, 5, 5, [5, 5]⟩
    uvmcreate := 2281701376
    map_trampoline := true
    map_trapframe := true }

/-- A table of four slots: init (pid 1) asleep in `wait`, a shell (pid 2)
running, a child of the shell (pid 3) asleep on some channel, and a free slot. -/
def ex_table : Kernel :=
  { proc :=
      [ { proc.zero with
          state := procstate.SLEEPING, chan := Chan.ofProc 0, pid := 1, parent := none,
          kstack := 274877894656, sz := 12288, pagetable := 2280648704,
          trapframe := some ⟨100, 12000, 0, 0, 0, 3, []⟩,
          ofile := [some 1, some 1, some 1], cwd := some 1,
          name := ⟨[105, 110, 105, 116], by decide⟩, init_ticks := 0 },
        { proc.zero with
          state := procstate.RUNNING, pid := 2, parent := some 0,
          kstack := 274877886464, sz := 16384, pagetable := 2280652800,
          trapframe := some ⟨200, 16000, 11, 12, 13, 1, [14]⟩,
          ofile := [some 1, none, some 2], cwd := some 1,
          name := ⟨[115, 104], by decide⟩, init_ticks := 3, last_run_start := 40 },
        { proc.zero with
          state := procstate.SLEEPING, chan := Chan.addr 2147500000, pid := 3,
          parent := some 1,
          kstack := 274877878272, sz := 16384, pagetable := 2280656896,
          trapframe := some ⟨300, 16000, 1, 5000, 10, 16, []⟩,
          ofile := [some 1, some 1, some 1], cwd := some 1,
          name := ⟨[99, 97, 116], by decide⟩, init_ticks := 20, last_run_start := 30 },
        { proc.zero with kstack := 274877870080 } ],
    initproc := some 0, nextpid := 4, held := [], acquired := [], fs := [], out := [] }

/-- Physical memory for the worked examples: zero everywhere, except that
entry 0 of the root page table at 2280656896 is valid and refers to the page
at 2280660992. -/
def ex_mem (a : Nat) : Nat :=
  if a = 2280656896 then 1
  else if a = 2280656897 then 8
  else if a = 2280656898 then 252
  else if a = 2280656899 then 33
  else 0

/-- The example table when the process in slot 2 has run `exit(5)` at time 50. -/
def ex_exited : Kernel :=
  (exit 50 2 5 ex_table).getD ex_table

/-- A sequence of calls for the worked examples: a first process is
allocated, forks twice, its first child exits and is reaped, it forks again,
and pid 3 is killed. -/
def ex_ops : List Op :=
  [ Op.allocproc ex_ext,
    Op.fork ex_ext true 1 0,
    Op.fork ex_ext true 2 0,
    Op.exit 3 1 7,
    Op.wait (fun _ _ _ => true) 4 0 100,
    Op.fork ex_ext true 5 0,
    Op.kill 3 ]

/-- Values for the worked examples of the introspection handlers. -/
def ex_info : InfoExt :=
  { STATE_SIZE := 8
    NAME_SIZE := 16
    NOFILE := 16
    SYS_write := 16
    pad := fun _ => 0
    filecount := 3
    now := 100
    stack := fun _ => 0 }

/-- The example memory with one more valid entry: entry 0 of the page table at
2280660992 refers to the page at 2280665088, whose first byte is 7. -/
def ex_mem2 (a : Nat) : Nat :=
  if a = 2280660992 then 1
  else if a = 2280660993 then 12
  else if a = 2280660994 then 252
  else if a = 2280660995 then 33
  else if a = 2280665088 then 7
  else ex_mem a

/-- The example table when the process in slot 2 (pid 3) is asleep inside
`write(1, 10, 4)`: system call number 16, descriptor 1, buffer at virtual
address 10, four bytes. -/
def ex_blocked : Kernel :=
  ex_table.upd 2 (fun q => { q with trapframe := some ⟨300, 16000, 1, 4, 10, 16, []⟩ })

/-- A `walkaddr` for the worked examples: in the page table at 2280656896 the
page at virtual address 0 is backed by the frame at 2280669184 and the page at
4096 by the frame at 2280677376; nothing else is mapped. -/
def ex_walkaddr (pagetable va : Nat) : Nat :=
  if pagetable = 2280656896 then
    if va / 4096 = 0 then 2280669184 else if va / 4096 = 1 then 2280677376 else 0
  else 0

/-- Physical memory for the examples of `handle_ps_copy`: the two frames of
`ex_walkaddr` start with the bytes 65 and 66; the frame at 2280673280, which
follows the first one in physical memory and is not mapped by that page table,
starts with 67. -/
def ex_mem3 (a : Nat) : Nat :=
  if a = 2280669184 then 65
  else if a = 2280677376 then 66
  else if a = 2280673280 then 67
  else 0

/-- The state after the first five calls of `ex_ops`: the first child of the
first process has exited at time 3 and has been reaped. -/
def ex_reaped : Kernel :=
  (run ex_consts (ex_ops.take 5) (procinit ex_consts 3)).getD (procinit ex_consts 3)

/-- The example table when the pid counter has reached 2^31 - 1, the largest
`int`. -/
def ex_last_pid : Kernel :=
  { ex_table with nextpid := 2147483647 }

/-- What `wakeup(c)` called by `me` does to the record `q` of slot `j`. -/
def wake1 (me : Option Nat) (c : Chan) (j : Nat) (q : proc) : proc :=
  if some j ≠ me ∧ q.state = procstate.SLEEPING ∧ q.chan = c then
    { q with state := procstate.RUNNABLE }
  else q

/-- Whether one of the `n` slots `i, i+1, ...` has parent `p`. -/
def has_child (p : Nat) : Nat → Nat → Kernel → Bool
  | 0, _, _ => false
  | n + 1, i, k => decide ((k.slot i).parent = some p) || has_child p n (i + 1) k

/-- The pid of a record that is in use. -/
def live_pid (q : proc) : Option Int :=
  if q.state = procstate.UNUSED then none else some q.pid

/-- From `k` to `k1` no slot comes into use or changes its pid while in use,
and `nextpid` is the same. -/
def Shrinks (k k1 : Kernel) : Prop :=
  k1.proc.length = k.proc.length ∧ k1.nextpid = k.nextpid ∧
    ∀ j, live_pid (k1.slot j) = none ∨ live_pid (k1.slot j) = live_pid (k.slot j)

/-- From `k` to `k1` the children of `p` have been handed to init: every
record whose parent was `p` has parent `initproc`, no record has parent `p`,
the parent of every other record is the same, and init, if it was asleep on the
channel `initproc` and a record was handed over, is RUNNABLE. -/
def Reparented (p : Nat) (k k1 : Kernel) : Prop :=
  (∀ j, (k.slot j).parent = some p → (k1.slot j).parent = k.initproc) ∧
  (∀ j, (k1.slot j).parent ≠ some p) ∧
  (∀ j, (k.slot j).parent ≠ some p → (k1.slot j).parent = (k.slot j).parent) ∧
  (∀ i, k.initproc = some i → (∃ j, (k.slot j).parent = some p) →
    (k.slot i).state = procstate.SLEEPING → (k.slot i).chan = Chan.ofProc i →
    (k1.slot i).state = procstate.RUNNABLE)

/-- Everything but the table entries and the acquisition history is the same
in `k` and `k1`: table length, `initproc`, `nextpid`, the locks held, and the
two logs. -/
def Frame (k k1 : Kernel) : Prop :=
  k1.proc.length = k.proc.length ∧ k1.initproc = k.initproc ∧ k1.nextpid = k.nextpid ∧
    k1.held = k.held ∧ k1.fs = k.fs ∧ k1.out = k.out

/-- Whether a record is in use. -/
def in_use (q : proc) : Bool :=
  decide (q.state ≠ procstate.UNUSED)

/-- The records in use, in table order. -/
def live_records (k : Kernel) : List proc :=
  k.proc.filter in_use

/-- The copies `handle_ps` makes for the records `l`, the first of them going
to slot `start` of the buffer of `int`s at `pids`. -/
def ps_list_writes (pagetable pids start : Nat) (l : List proc) : List ucopy :=
  (l.enumFrom start).map (fun x => ⟨pagetable, pids + x.1 * 4, int_bytes x.2.pid⟩)

/-- Modelled from the spec: the `n` bytes stored at the virtual addresses
`addr, addr+1, ...` of the address space with page table `pagetable`.  The
translation is `walkaddr` (vm.c, not among the sources): the byte at address `v`
lies at offset `v mod PGSIZE` of the frame that `walkaddr` gives for the start
of the page of `v`. -/
def target_bytes (c : Consts) (walkaddr : Nat → Nat → Nat) (mem : Nat → Nat)
    (pagetable addr n : Nat) : List Nat :=
  (List.range n).map (fun j =>
    mem (walkaddr pagetable ((addr + j) - (addr + j) % c.PGSIZE) + (addr + j) % c.PGSIZE))

/-! ## Basic facts about slots, locks and updates -/

@[simp] theorem acquire_proc (l : spinlock) (k : Kernel) : (acquire l k).proc = k.proc := rfl
@[simp] theorem release_proc (l : spinlock) (k : Kernel) : (release l k).proc = k.proc := rfl
@[simp] theorem acquire_initproc (l : spinlock) (k : Kernel) :
    (acquire l k).initproc = k.initproc := rfl
@[simp] theorem release_initproc (l : spinlock) (k : Kernel) :
    (release l k).initproc = k.initproc := rfl
@[simp] theorem acquire_nextpid (l : spinlock) (k : Kernel) :
    (acquire l k).nextpid = k.nextpid := rfl
@[simp] theorem release_nextpid (l : spinlock) (k : Kernel) :
    (release l k).nextpid = k.nextpid := rfl
@[simp] theorem acquire_fs (l : spinlock) (k : Kernel) : (acquire l k).fs = k.fs := rfl
@[simp] theorem release_fs (l : spinlock) (k : Kernel) : (release l k).fs = k.fs := rfl
@[simp] theorem acquire_out (l : spinlock) (k : Kernel) : (acquire l k).out = k.out := rfl
@[simp] theorem release_out (l : spinlock) (k : Kernel) : (release l k).out = k.out := rfl
@[simp] theorem acquire_held (l : spinlock) (k : Kernel) :
    (acquire l k).held = l :: k.held := rfl
@[simp] theorem release_held (l : spinlock) (k : Kernel) :
    (release l k).held = k.held.erase l := rfl
@[simp] theorem slot_acquire (l : spinlock) (k : Kernel) (i : Nat) :
    (acquire l k).slot i = k.slot i := rfl
@[simp] theorem slot_release (l : spinlock) (k : Kernel) (i : Nat) :
    (release l k).slot i = k.slot i := rfl

@[simp] theorem upd_length (k : Kernel) (i : Nat) (f : proc → proc) :
    (k.upd i f).proc.length = k.proc.length := by
  simp [Kernel.upd]
@[simp] theorem upd_initproc (k : Kernel) (i : Nat) (f : proc → proc) :
    (k.upd i f).initproc = k.initproc := rfl
@[simp] theorem upd_nextpid (k : Kernel) (i : Nat) (f : proc → proc) :
    (k.upd i f).nextpid = k.nextpid := rfl
@[simp] theorem upd_held (k : Kernel) (i : Nat) (f : proc → proc) :
    (k.upd i f).held = k.held := rfl
@[simp] theorem upd_fs (k : Kernel) (i : Nat) (f : proc → proc) : (k.upd i f).fs = k.fs := rfl
@[simp] theorem upd_out (k : Kernel) (i : Nat) (f : proc → proc) : (k.upd i f).out = k.out := rfl

@[simp] theorem log_fs_proc (k : Kernel) (l : List fs_call) : (k.log_fs l).proc = k.proc := rfl
@[simp] theorem log_fs_initproc (k : Kernel) (l : List fs_call) :
    (k.log_fs l).initproc = k.initproc := rfl
@[simp] theorem log_fs_nextpid (k : Kernel) (l : List fs_call) :
    (k.log_fs l).nextpid = k.nextpid := rfl
@[simp] theorem log_fs_held (k : Kernel) (l : List fs_call) : (k.log_fs l).held = k.held := rfl
@[simp] theorem log_fs_fs (k : Kernel) (l : List fs_call) : (k.log_fs l).fs = k.fs ++ l := rfl
@[simp] theorem log_fs_out (k : Kernel) (l : List fs_call) : (k.log_fs l).out = k.out := rfl
@[simp] theorem slot_log_fs (k : Kernel) (l : List fs_call) (i : Nat) :
    (k.log_fs l).slot i = k.slot i := rfl

theorem slot_of_lt (k : Kernel) {i : Nat} (h : i < k.proc.length) :
    k.proc[i]? = some (k.slot i) := by
  simp [Kernel.slot, List.getElem?_eq_getElem h]

theorem slot_of_ge (k : Kernel) {i : Nat} (h : k.proc.length ≤ i) : k.slot i = proc.zero := by
  simp [Kernel.slot, List.getElem?_eq_none h]

theorem slot_upd (k : Kernel) (i j : Nat) (f : proc → proc) :
    (k.upd i f).slot j = if j = i ∧ i < k.proc.length then f (k.slot j) else k.slot j := by
  unfold Kernel.slot Kernel.upd
  simp only [List.getElem?_modify]
  by_cases hij : i = j
  · subst hij
    by_cases hlt : i < k.proc.length
    · simp [List.getElem?_eq_getElem hlt, hlt]
    · simp [List.getElem?_eq_none (Nat.le_of_not_lt hlt), hlt]
  · have hji : ¬ j = i := fun h => hij h.symm
    cases hk : k.proc[j]? <;> simp [hij, hji]

theorem slot_upd_self (k : Kernel) {i : Nat} (f : proc → proc) (h : i < k.proc.length) :
    (k.upd i f).slot i = f (k.slot i) := by
  simp [slot_upd, h]

theorem slot_upd_ne (k : Kernel) {i j : Nat} (f : proc → proc) (h : j ≠ i) :
    (k.upd i f).slot j = k.slot j := by
  simp [slot_upd, h]

theorem frame_refl (k : Kernel) : Frame k k := ⟨rfl, rfl, rfl, rfl, rfl, rfl⟩

theorem frame_trans {a b d : Kernel} (h1 : Frame a b) (h2 : Frame b d) : Frame a d :=
  ⟨h2.1.trans h1.1, h2.2.1.trans h1.2.1, h2.2.2.1.trans h1.2.2.1,
    h2.2.2.2.1.trans h1.2.2.2.1, h2.2.2.2.2.1.trans h1.2.2.2.2.1,
    h2.2.2.2.2.2.trans h1.2.2.2.2.2⟩

theorem frame_upd (k : Kernel) (i : Nat) (f : proc → proc) : Frame k (k.upd i f) :=
  ⟨upd_length k i f, rfl, rfl, rfl, rfl, rfl⟩

theorem frame_acq_rel (l : spinlock) (k : Kernel) : Frame k (release l (acquire l k)) := by
  refine ⟨rfl, rfl, rfl, ?_, rfl, rfl⟩
  simp

theorem frame_acq_upd_rel (l : spinlock) (k : Kernel) (i : Nat) (f : proc → proc) :
    Frame k (release l ((acquire l k).upd i f)) := by
  refine ⟨?_, rfl, rfl, ?_, rfl, rfl⟩ <;> simp

/-! ## wakeup -/

theorem wakeup_loop_spec (me : Option Nat) (c : Chan) : ∀ (n i : Nat) (k : Kernel),
    Frame k (wakeup_loop me c n i k) ∧
    ∀ j, (wakeup_loop me c n i k).slot j =
      if i ≤ j ∧ j < i + n ∧ some j ≠ me ∧ (k.slot j).state = procstate.SLEEPING ∧
          (k.slot j).chan = c
      then { k.slot j with state := procstate.RUNNABLE } else k.slot j := by
  intro n
  induction n with
  | zero =>
    intro i k
    refine ⟨frame_refl k, fun j => ?_⟩
    have : ¬ (i ≤ j ∧ j < i + 0 ∧ some j ≠ me ∧ (k.slot j).state = procstate.SLEEPING ∧
        (k.slot j).chan = c) := by omega
    simp only [wakeup_loop, if_neg this]
  | succ n ih =>
    intro i k
    simp only [wakeup_loop, slot_acquire]
    -- the state after the body of the loop at index `i`
    generalize hk3 : (if some i ≠ me then
        release (spinlock.plock i)
          (if (k.slot i).state = procstate.SLEEPING ∧ (k.slot i).chan = c then
            (acquire (spinlock.plock i) k).upd i
              (fun p => { p with state := procstate.RUNNABLE })
          else acquire (spinlock.plock i) k)
      else k) = k3
    have hF : Frame k k3 := by
      subst hk3
      split_ifs
      · exact frame_acq_upd_rel _ _ _ _
      · exact frame_acq_rel _ _
      · exact frame_refl _
    have hS : ∀ j, k3.slot j =
        if j = i ∧ some j ≠ me ∧ (k.slot j).state = procstate.SLEEPING ∧ (k.slot j).chan = c
        then { k.slot j with state := procstate.RUNNABLE } else k.slot j := by
      intro j
      subst hk3
      by_cases hji : j = i
      · subst hji
        by_cases hlt : j < k.proc.length
        · split_ifs <;> simp_all [slot_upd]
        · have hz := slot_of_ge k (Nat.le_of_not_lt hlt)
          split_ifs <;> simp_all [slot_upd, proc.zero]
      · split_ifs <;> simp_all [slot_upd]
    obtain ⟨ihF, ihS⟩ := ih (i + 1) k3
    refine ⟨frame_trans hF ihF, fun j => ?_⟩
    rw [ihS j, hS j]
    by_cases hji : j = i
    · subst hji
      have h1 : ¬ (j + 1 ≤ j) := by omega
      have h2 : j ≤ j ∧ j < j + (n + 1) := by omega
      simp [h1, h2]
    · have h3 : (i + 1 ≤ j ∧ j < i + 1 + n) ↔ (i ≤ j ∧ j < i + (n + 1)) := by omega
      simp only [hji, false_and, if_false]
      by_cases h4 : i ≤ j ∧ j < i + (n + 1)
      · have h5 := h3.mpr h4
        simp [h4.1, h4.2, h5.1, h5.2]
      · have h5 : ¬ (i + 1 ≤ j ∧ j < i + 1 + n) := fun h => h4 (h3.mp h)
        have e1 : ¬ (i + 1 ≤ j ∧ j < i + 1 + n ∧ some j ≠ me ∧
            (k.slot j).state = procstate.SLEEPING ∧ (k.slot j).chan = c) :=
          fun h => h5 ⟨h.1, h.2.1⟩
        have e2 : ¬ (i ≤ j ∧ j < i + (n + 1) ∧ some j ≠ me ∧
            (k.slot j).state = procstate.SLEEPING ∧ (k.slot j).chan = c) :=
          fun h => h4 ⟨h.1, h.2.1⟩
        rw [if_neg e1, if_neg e2]

theorem wakeup_spec (me : Option Nat) (c : Chan) (k : Kernel) :
    Frame k (wakeup me c k) ∧
    ∀ j, (wakeup me c k).slot j =
      if some j ≠ me ∧ (k.slot j).state = procstate.SLEEPING ∧ (k.slot j).chan = c
      then { k.slot j with state := procstate.RUNNABLE } else k.slot j := by
  obtain ⟨hF, hS⟩ := wakeup_loop_spec me c k.proc.length 0 k
  refine ⟨hF, fun j => ?_⟩
  rw [show wakeup me c k = wakeup_loop me c k.proc.length 0 k from rfl, hS j]
  by_cases hlt : j < k.proc.length
  · simp [hlt]
  · have hz := slot_of_ge k (Nat.le_of_not_lt hlt)
    simp [hlt, hz, proc.zero]

/-! ## kill -/

theorem kill_loop_found (pid : Int) : ∀ (n i : Nat) (k : Kernel) (r : Nat),
    i ≤ r → r < i + n → r < k.proc.length → (k.slot r).pid = pid →
    (∀ j, i ≤ j → j < r → (k.slot j).pid ≠ pid) →
    (kill_loop pid n i k).1 = 0 ∧ Frame k (kill_loop pid n i k).2 ∧
    ∀ j, (kill_loop pid n i k).2.slot j =
      if j = r then
        { k.slot r with
          killed := 1,
          state := if (k.slot r).state = procstate.SLEEPING then procstate.RUNNABLE
                   else (k.slot r).state }
      else k.slot j := by
  intro n
  induction n with
  | zero => intro i k r h1 h2; omega
  | succ n ih =>
    intro i k r h1 h2 hlen hpid hfirst
    by_cases hri : r = i
    · subst hri
      simp only [kill_loop, slot_acquire, hpid, if_true]
      refine ⟨trivial, ?_, fun j => ?_⟩
      · split_ifs
        · refine ⟨?_, rfl, rfl, ?_, rfl, rfl⟩ <;> simp
        · refine ⟨?_, rfl, rfl, ?_, rfl, rfl⟩ <;> simp
      · have e : (((acquire (spinlock.plock r) k).upd r
            (fun p => { p with killed := 1 })).slot r).state = (k.slot r).state := by
          rw [slot_upd_self _ _ (by simpa using hlen)]
          rfl
        rw [e]
        by_cases hs : (k.slot r).state = procstate.SLEEPING
        · simp only [hs, if_true, slot_release]
          by_cases hjr : j = r
          · subst hjr
            rw [slot_upd_self _ _ (by simpa using hlen), slot_upd_self _ _ (by simpa using hlen)]
            simp [hpid]
          · rw [slot_upd_ne _ _ hjr, slot_upd_ne _ _ hjr]
            simp [hjr]
        · simp only [hs, if_false, slot_release]
          by_cases hjr : j = r
          · subst hjr
            rw [slot_upd_self _ _ (by simpa using hlen)]
            simp [hpid]
          · rw [slot_upd_ne _ _ hjr]
            simp [hjr]
    · have hne : (k.slot i).pid ≠ pid := hfirst i (le_refl i) (by omega)
      simp only [kill_loop, slot_acquire, hne, if_false]
      have := ih (i + 1) (release (spinlock.plock i) (acquire (spinlock.plock i) k)) r
        (by omega) (by omega) hlen hpid (fun j hj1 hj2 => hfirst j (by omega) hj2)
      obtain ⟨ha, hb, hc⟩ := this
      exact ⟨ha, frame_trans (frame_acq_rel _ k) hb, hc⟩

theorem kill_loop_absent (pid : Int) : ∀ (n i : Nat) (k : Kernel),
    (∀ j, i ≤ j → j < i + n → (k.slot j).pid ≠ pid) →
    (kill_loop pid n i k).1 = -1 ∧ Frame k (kill_loop pid n i k).2 ∧
    (kill_loop pid n i k).2.proc = k.proc := by
  intro n
  induction n with
  | zero => intro i k _; exact ⟨rfl, frame_refl k, rfl⟩
  | succ n ih =>
    intro i k h
    have hne : (k.slot i).pid ≠ pid := h i (le_refl i) (by omega)
    simp only [kill_loop, slot_acquire, hne, if_false]
    obtain ⟨ha, hb, hc⟩ := ih (i + 1) (release (spinlock.plock i) (acquire (spinlock.plock i) k))
      (fun j hj1 hj2 => h j (by omega) (by omega))
    exact ⟨ha, frame_trans (frame_acq_rel _ k) hb, hc⟩

theorem procinit_length (c : Consts) (n : Nat) : (procinit c n).proc.length = n := by
  simp [procinit]

theorem procinit_slot (c : Consts) (n i : Nat) (h : i < n) :
    (procinit c n).slot i = { proc.zero with kstack := c.KSTACK i } := by
  simp [Kernel.slot, procinit, List.getElem?_range h, h, proc.zero]

theorem wakeup_slot (me : Option Nat) (c : Chan) (k : Kernel) (j : Nat) :
    (wakeup me c k).slot j = wake1 me c j (k.slot j) :=
  (wakeup_spec me c k).2 j

theorem wake1_idem (me : Option Nat) (c : Chan) (j : Nat) (q : proc) :
    wake1 me c j (wake1 me c j q) = wake1 me c j q := by
  unfold wake1
  split_ifs <;> rfl

theorem wake1_set_parent (me : Option Nat) (c : Chan) (j : Nat) (q : proc) (x : Option Nat) :
    wake1 me c j { q with parent := x } = { wake1 me c j q with parent := x } := by
  unfold wake1
  split_ifs <;> rfl

theorem wake1_parent (me : Option Nat) (c : Chan) (j : Nat) (q : proc) :
    (wake1 me c j q).parent = q.parent := by
  unfold wake1
  split_ifs <;> rfl

theorem wake1_self (c : Chan) (j : Nat) (q : proc) : wake1 (some j) c j q = q := by
  simp [wake1]

/-! ## reparent -/

theorem reparent_loop_spec (me : Option Nat) (p : Nat) : ∀ (n i : Nat) (k : Kernel),
    Frame k (reparent_loop me p n i k) ∧
    ∀ j, (reparent_loop me p n i k).slot j =
      (if has_child p n i k then wake1 me (Chan.ofPtr k.initproc) j else id)
        (if i ≤ j ∧ j < i + n ∧ (k.slot j).parent = some p then
          { k.slot j with parent := k.initproc } else k.slot j) := by
  intro n
  induction n with
  | zero =>
    intro i k
    refine ⟨frame_refl k, fun j => ?_⟩
    have : ¬ (i ≤ j ∧ j < i + 0 ∧ (k.slot j).parent = some p) := by omega
    simp only [reparent_loop, has_child, if_neg this]
    rfl
  | succ n ih =>
    intro i k
    by_cases hpi : (k.slot i).parent = some p
    · -- slot `i` is a child: it is handed to init, and init is woken
      have hlen : i < k.proc.length := by
        by_contra hcon
        rw [slot_of_ge k (Nat.le_of_not_lt hcon)] at hpi
        exact absurd hpi (by simp [proc.zero])
      simp only [reparent_loop, hpi, if_true, has_child, decide_True, Bool.true_or, upd_initproc]
      generalize hk2 : wakeup me (Chan.ofPtr k.initproc)
        (k.upd i (fun q => { q with parent := k.initproc })) = k2
      have hF2 : Frame k k2 := by
        subst hk2
        exact frame_trans (frame_upd k i _) (wakeup_spec _ _ _).1
      have hS2 : ∀ j, k2.slot j = wake1 me (Chan.ofPtr k.initproc) j
          (if j = i then { k.slot j with parent := k.initproc } else k.slot j) := by
        intro j
        subst hk2
        rw [wakeup_slot, slot_upd]
        by_cases hji : j = i
        · simp [hji, hlen]
        · simp [hji]
      obtain ⟨ihF, ihS⟩ := ih (i + 1) k2
      refine ⟨frame_trans hF2 ihF, fun j => ?_⟩
      rw [ihS j, hS2 j, hF2.2.1]
      by_cases hji : j = i
      · subst hji
        have h1 : ¬ (j + 1 ≤ j) := by omega
        have h2 : j ≤ j ∧ j < j + (n + 1) := by omega
        simp only [h1, false_and, if_false, if_true, h2, hpi, true_and, and_self]
        split_ifs
        · exact wake1_idem _ _ _ _
        · rfl
      · have h3 : (i + 1 ≤ j ∧ j < i + 1 + n) ↔ (i ≤ j ∧ j < i + (n + 1)) := by omega
        simp only [hji, if_false, wake1_parent]
        by_cases hc : i ≤ j ∧ j < i + (n + 1) ∧ (k.slot j).parent = some p
        · have hc2 : i + 1 ≤ j ∧ j < i + 1 + n ∧ (k.slot j).parent = some p :=
            ⟨(h3.mpr ⟨hc.1, hc.2.1⟩).1, (h3.mpr ⟨hc.1, hc.2.1⟩).2, hc.2.2⟩
          rw [if_pos hc, if_pos hc2]
          split_ifs
          · simp only [wake1_set_parent, wake1_idem]
          · simp only [wake1_set_parent, id]
        · have hc2 : ¬ (i + 1 ≤ j ∧ j < i + 1 + n ∧ (k.slot j).parent = some p) :=
            fun h => hc ⟨(h3.mp ⟨h.1, h.2.1⟩).1, (h3.mp ⟨h.1, h.2.1⟩).2, h.2.2⟩
          rw [if_neg hc, if_neg hc2]
          split_ifs
          · exact wake1_idem _ _ _ _
          · rfl
    · -- slot `i` is not a child
      simp only [reparent_loop, hpi, if_false, has_child, decide_False, Bool.false_or]
      obtain ⟨ihF, ihS⟩ := ih (i + 1) k
      refine ⟨ihF, fun j => ?_⟩
      rw [ihS j]
      by_cases hji : j = i
      · subst hji
        have h1 : ¬ (j + 1 ≤ j ∧ j < j + 1 + n ∧ (k.slot j).parent = some p) := by omega
        have h2 : ¬ (j ≤ j ∧ j < j + (n + 1) ∧ (k.slot j).parent = some p) :=
          fun h => hpi h.2.2
        rw [if_neg h1, if_neg h2]
      · have h3 : (i + 1 ≤ j ∧ j < i + 1 + n ∧ (k.slot j).parent = some p) ↔
            (i ≤ j ∧ j < i + (n + 1) ∧ (k.slot j).parent = some p) := by
          constructor
          · rintro ⟨a, b, d⟩; exact ⟨by omega, by omega, d⟩
          · rintro ⟨a, b, d⟩; exact ⟨by omega, by omega, d⟩
        simp only [h3]

theorem has_child_iff (p : Nat) : ∀ (n i : Nat) (k : Kernel),
    has_child p n i k = true ↔ ∃ j, i ≤ j ∧ j < i + n ∧ (k.slot j).parent = some p := by
  intro n
  induction n with
  | zero =>
    intro i k
    simp only [has_child]
    constructor
    · intro h; exact absurd h (by decide)
    · rintro ⟨j, h1, h2, _⟩; omega
  | succ n ih =>
    intro i k
    simp only [has_child, Bool.or_eq_true, decide_eq_true_eq, ih]
    constructor
    · rintro (h | ⟨j, h1, h2, h3⟩)
      · exact ⟨i, le_refl i, by omega, h⟩
      · exact ⟨j, by omega, by omega, h3⟩
    · rintro ⟨j, h1, h2, h3⟩
      by_cases hji : j = i
      · subst hji; exact Or.inl h3
      · exact Or.inr ⟨j, by omega, by omega, h3⟩

theorem reparent_spec (me : Option Nat) (p : Nat) (k : Kernel) :
    Frame k (reparent me p k) ∧
    ∀ j, (reparent me p k).slot j =
      (if has_child p k.proc.length 0 k then wake1 me (Chan.ofPtr k.initproc) j else id)
        (if (k.slot j).parent = some p then { k.slot j with parent := k.initproc }
         else k.slot j) := by
  obtain ⟨hF, hS⟩ := reparent_loop_spec me p k.proc.length 0 k
  refine ⟨hF, fun j => ?_⟩
  rw [show reparent me p k = reparent_loop me p k.proc.length 0 k from rfl, hS j]
  by_cases hlt : j < k.proc.length
  · simp [hlt]
  · have hz := slot_of_ge k (Nat.le_of_not_lt hlt)
    simp [hlt, hz, proc.zero]

theorem has_child_congr (p : Nat) (k k1 : Kernel)
    (h : ∀ j, (k1.slot j).parent = (k.slot j).parent) :
    ∀ (n i : Nat), has_child p n i k1 = has_child p n i k := by
  intro n
  induction n with
  | zero => intro i; rfl
  | succ n ih => intro i; simp only [has_child, h, ih]

/-! ## sched and exit -/

theorem sched_some (now p : Nat) (k : Kernel) (hheld : spinlock.plock p ∈ k.held)
    (hrun : (k.slot p).state ≠ procstate.RUNNING) :
    ∃ k1, sched now p k = some k1 ∧ Frame k k1 ∧
      ∀ j, k1.slot j =
        if j = p then { k.slot p with run_time := (k1.slot p).run_time } else k.slot j := by
  unfold sched
  by_cases hs : (k.slot p).state = procstate.SLEEPING ∨ (k.slot p).state = procstate.ZOMBIE
  · simp only [hs, if_true, upd_held, hheld, not_true_eq_false, if_false]
    have hst : ∀ f : proc → proc, (∀ q, (f q).state = q.state) →
        ((k.upd p f).slot p).state = (k.slot p).state := by
      intro f hf
      rw [slot_upd]
      split_ifs
      · exact hf _
      · rfl
    have hnr := hst (fun q => { q with run_time :=
      (((q.run_time : Int) + ((now : Int) - (q.last_run_start : Int))) % 4294967296).toNat })
      (fun _ => rfl)
    rw [if_neg (by rw [hnr]; exact hrun)]
    refine ⟨_, rfl, frame_upd k p _, fun j => ?_⟩
    by_cases hjp : j = p
    · subst hjp
      by_cases hlt : j < k.proc.length
      · simp [slot_upd, hlt]
      · simp [slot_upd, hlt]
    · rw [slot_upd_ne _ _ hjp, if_neg hjp]
  · simp only [hs, if_false, hheld, not_true_eq_false, hrun]
    refine ⟨k, rfl, frame_refl k, fun j => ?_⟩
    by_cases hjp : j = p
    · subst hjp; simp
    · simp [hjp]

theorem exit_close_frame (p : Nat) (k : Kernel) :
    (exit_close p k).proc.length = k.proc.length ∧
    (exit_close p k).initproc = k.initproc ∧
    (exit_close p k).nextpid = k.nextpid ∧
    (exit_close p k).held = k.held ∧
    (exit_close p k).out = k.out := by
  refine ⟨?_, rfl, rfl, rfl, rfl⟩
  simp [exit_close]

theorem exit_close_slot (p : Nat) (k : Kernel) (t : Nat) :
    (exit_close p k).slot t =
      if t = p ∧ p < k.proc.length then
        { k.slot p with ofile := (k.slot p).ofile.map (fun _ => none), cwd := none }
      else k.slot t := by
  unfold exit_close
  simp only [slot_upd, slot_log_fs, upd_length, log_fs_proc]
  by_cases htp : t = p
  · subst htp
    by_cases hlt : t < k.proc.length
    · simp [hlt]
    · simp [hlt]
  · simp [htp]

theorem exit_body_frame (p : Nat) (s : Int) (k : Kernel) :
    (exit_body p s k).proc.length = k.proc.length ∧
    (exit_body p s k).initproc = k.initproc ∧
    (exit_body p s k).nextpid = k.nextpid ∧
    (exit_body p s k).held = spinlock.plock p :: k.held ∧
    (exit_body p s k).out = k.out := by
  unfold exit_body
  have hw := fun me c k0 => (wakeup_spec me c k0).1
  have hr := fun me q k0 => (reparent_spec me q k0).1
  have hc := exit_close_frame p k
  refine ⟨?_, ?_, ?_, ?_, ?_⟩
  · simp [(hw _ _ _).1, (hr _ _ _).1, hc.1]
  · simp [(hw _ _ _).2.1, (hr _ _ _).2.1, hc.2.1]
  · simp [(hw _ _ _).2.2.1, (hr _ _ _).2.2.1, hc.2.2.1]
  · simp [(hw _ _ _).2.2.2.1, (hr _ _ _).2.2.2.1, hc.2.2.2.1]
  · simp [(hw _ _ _).2.2.2.2.2, (hr _ _ _).2.2.2.2.2, hc.2.2.2.2]

theorem exit_body_slot (p : Nat) (s : Int) (k : Kernel) (j : Nat) :
    (exit_body p s k).slot j =
      if j = p then
        if p < k.proc.length then
          { k.slot p with
            ofile := (k.slot p).ofile.map (fun _ => none), cwd := none,
            parent := if (k.slot p).parent = some p then k.initproc else (k.slot p).parent,
            xstate := s, state := procstate.ZOMBIE }
        else k.slot p
      else
        wake1 (some p)
          (Chan.ofPtr (if (k.slot p).parent = some p then k.initproc else (k.slot p).parent)) j
          ((if has_child p k.proc.length 0 k then wake1 (some p) (Chan.ofPtr k.initproc) j
            else id)
            (if (k.slot j).parent = some p then { k.slot j with parent := k.initproc }
             else k.slot j)) := by
  obtain ⟨k3, hk3⟩ : ∃ k3, k3 = acquire spinlock.wait_lock (exit_close p k) := ⟨_, rfl⟩
  have hE : exit_body p s k = release spinlock.wait_lock
      (((acquire (spinlock.plock p) (wakeup (some p)
        (Chan.ofPtr ((reparent (some p) p k3).slot p).parent) (reparent (some p) p k3))).upd p
          (fun q => { q with xstate := s })).upd p
          (fun q => { q with state := procstate.ZOMBIE })) := by
    subst hk3; rfl
  have h3len : k3.proc.length = k.proc.length := by subst hk3; exact (exit_close_frame p k).1
  have h3init : k3.initproc = k.initproc := by subst hk3; rfl
  have h3slot : ∀ t, k3.slot t =
      if t = p ∧ p < k.proc.length then
        { k.slot p with ofile := (k.slot p).ofile.map (fun _ => none), cwd := none }
      else k.slot t := by
    intro t
    subst hk3
    exact exit_close_slot p k t
  have h3par : ∀ t, (k3.slot t).parent = (k.slot t).parent := by
    intro t
    rw [h3slot]
    split_ifs with h
    · rw [h.1]
    · rfl
  have h4 := reparent_spec (some p) p k3
  have hidp : ∀ q, (if has_child p k3.proc.length 0 k3 = true then
      wake1 (some p) (Chan.ofPtr k3.initproc) p else id) q = q := by
    intro q
    split_ifs
    · exact wake1_self _ _ _
    · rfl
  have h4p : ((reparent (some p) p k3).slot p).parent =
      if (k.slot p).parent = some p then k.initproc else (k.slot p).parent := by
    rw [h4.2 p, hidp, h3par, h3init]
    split_ifs <;> simp [h3par]
  have h5len : (wakeup (some p) (Chan.ofPtr ((reparent (some p) p k3).slot p).parent)
      (reparent (some p) p k3)).proc.length = k.proc.length := by
    rw [(wakeup_spec _ _ _).1.1, h4.1.1, h3len]
  rw [hE, slot_release]
  by_cases hjp : j = p
  · subst hjp
    by_cases hlt : j < k.proc.length
    · rw [slot_upd_self _ _ (by simpa [h5len] using hlt),
        slot_upd_self _ _ (by simpa [h5len] using hlt), slot_acquire, wakeup_slot, wake1_self,
        h4.2 j, hidp, h3par, h3init, h3slot]
      simp only [hlt, and_self, if_true]
      split_ifs <;> rfl
    · have hz := slot_of_ge k (Nat.le_of_not_lt hlt)
      rw [slot_upd, slot_upd, slot_acquire, wakeup_slot, wake1_self, h4.2 j, hidp, h3par,
        h3init, h3slot]
      simp [hlt, (wakeup_spec _ _ _).1.1, h4.1.1, h3len, hz, proc.zero]
  · rw [slot_upd_ne _ _ hjp, slot_upd_ne _ _ hjp, slot_acquire, wakeup_slot, h4p, h4.2 j,
      h3len, h3init, has_child_congr p k k3 h3par, h3par, h3slot]
    simp only [hjp, false_and, if_false, if_true]

theorem exit_some (now p : Nat) (s : Int) (k : Kernel) (h : some p ≠ k.initproc) :
    ∃ k1, exit now p s k = some k1 ∧ Frame (exit_body p s k) k1 ∧
      ∀ j, k1.slot j =
        if j = p then { (exit_body p s k).slot p with run_time := (k1.slot p).run_time }
        else (exit_body p s k).slot j := by
  have hheld : spinlock.plock p ∈ (exit_body p s k).held := by
    rw [(exit_body_frame p s k).2.2.2.1]
    exact List.mem_cons_self _ _
  have hrun : ((exit_body p s k).slot p).state ≠ procstate.RUNNING := by
    rw [exit_body_slot]
    by_cases hlt : p < k.proc.length
    · simp [hlt]
    · simp [hlt, slot_of_ge k (Nat.le_of_not_lt hlt), proc.zero]
  obtain ⟨k1, h1, h2, h3⟩ := sched_some now p (exit_body p s k) hheld hrun
  refine ⟨k1, ?_, h2, h3⟩
  unfold exit
  rw [if_neg h]
  exact h1

theorem exit_not_init (now p : Nat) (s : Int) (k k1 : Kernel) (h : exit now p s k = some k1) :
    some p ≠ k.initproc := by
  intro hcon
  unfold exit at h
  rw [if_pos hcon] at h
  exact absurd h (by simp)

/-! ## wait -/

theorem int_bytes_length (v : Int) : (int_bytes v).length = 4 := rfl

theorem wait_scan_nochild (ok : Nat → Nat → Nat → Bool) (p addr : Nat) :
    ∀ (n i : Nat) (hk : Bool) (k : Kernel),
    (∀ j, i ≤ j → j < i + n → (k.slot j).parent ≠ some p) →
    wait_scan ok p addr n i hk k = (none, hk, k) := by
  intro n
  induction n with
  | zero => intro i hk k _; rfl
  | succ n ih =>
    intro i hk k h
    have hne : (k.slot i).parent ≠ some p := h i (le_refl i) (by omega)
    simp only [wait_scan, hne, if_false]
    exact ih (i + 1) hk k (fun j h1 h2 => h j (by omega) (by omega))

theorem wait_scan_found (ok : Nat → Nat → Nat → Bool) (p addr : Nat) (haddr : addr ≠ 0) :
    ∀ (n i : Nat) (hk : Bool) (k : Kernel) (c : Nat),
    i ≤ c → c < i + n →
    (k.slot c).parent = some p → (k.slot c).state = procstate.ZOMBIE →
    (∀ j, i ≤ j → j < c →
      ¬ ((k.slot j).parent = some p ∧ (k.slot j).state = procstate.ZOMBIE)) →
    ok (k.slot p).pagetable addr 4 = true →
    (wait_scan ok p addr n i hk k).1 = some (k.slot c).pid ∧
    (wait_scan ok p addr n i hk k).2.2.proc = (freeproc c k).proc ∧
    (wait_scan ok p addr n i hk k).2.2.initproc = k.initproc ∧
    (wait_scan ok p addr n i hk k).2.2.nextpid = k.nextpid ∧
    (wait_scan ok p addr n i hk k).2.2.held = k.held.erase spinlock.wait_lock ∧
    (wait_scan ok p addr n i hk k).2.2.fs = k.fs ∧
    (wait_scan ok p addr n i hk k).2.2.out =
      k.out ++ [⟨(k.slot p).pagetable, addr, int_bytes (k.slot c).xstate⟩] := by
  intro n
  induction n with
  | zero => intro i hk k c h1 h2; omega
  | succ n ih =>
    intro i hk k c h1 h2 hpar hz hfirst hok
    by_cases hci : c = i
    · subst hci
      simp only [wait_scan, hpar, if_true, slot_acquire, hz, haddr, ne_eq, not_false_eq_true,
        copyout, int_bytes_length, hok, true_and]
      simp [freeproc, Kernel.upd]
    · have hlt : i < c := by omega
      have hnz := hfirst i (le_refl i) hlt
      have hrec := ih (i + 1) true
        (release (spinlock.plock i) (acquire (spinlock.plock i) k)) c (by omega) (by omega)
        hpar hz (fun j hj1 hj2 => hfirst j (by omega) hj2) hok
      have hheld : (release (spinlock.plock i) (acquire (spinlock.plock i) k)).held = k.held := by
        simp
      rw [hheld] at hrec
      by_cases hp : (k.slot i).parent = some p
      · have hs : (k.slot i).state ≠ procstate.ZOMBIE := fun h => hnz ⟨hp, h⟩
        simp only [wait_scan, hp, if_true, slot_acquire, hs, if_false]
        exact hrec
      · simp only [wait_scan, hp, if_false]
        exact ih (i + 1) hk k c (by omega) (by omega) hpar hz
          (fun j hj1 hj2 => hfirst j (by omega) hj2) hok

theorem wait_nochild (ok : Nat → Nat → Nat → Bool) (now p addr : Nat) (k : Kernel)
    (h : ∀ j, j < k.proc.length → (k.slot j).parent ≠ some p) :
    wait ok now p addr k =
      some (WaitResult.ret (-1),
        release spinlock.wait_lock (acquire spinlock.wait_lock k)) := by
  have hs := wait_scan_nochild ok p addr k.proc.length 0 false (acquire spinlock.wait_lock k)
    (fun j _ h2 => h j (by simpa using h2))
  unfold wait wait_pass
  rw [acquire_proc, hs]
  rfl

theorem wait_reaps (ok : Nat → Nat → Nat → Bool) (now p addr : Nat) (k : Kernel) (c : Nat)
    (haddr : addr ≠ 0) (hc : c < k.proc.length)
    (hpar : (k.slot c).parent = some p) (hz : (k.slot c).state = procstate.ZOMBIE)
    (hfirst : ∀ j, j < c →
      ¬ ((k.slot j).parent = some p ∧ (k.slot j).state = procstate.ZOMBIE))
    (hok : ok (k.slot p).pagetable addr 4 = true) :
    ∃ k2, wait ok now p addr k = some (WaitResult.ret (k.slot c).pid, k2) ∧
      k2.proc = (freeproc c k).proc ∧ k2.initproc = k.initproc ∧ k2.nextpid = k.nextpid ∧
      k2.held = k.held ∧ k2.fs = k.fs ∧
      k2.out = k.out ++ [⟨(k.slot p).pagetable, addr, int_bytes (k.slot c).xstate⟩] := by
  have hs := wait_scan_found ok p addr haddr k.proc.length 0 false
    (acquire spinlock.wait_lock k) c (Nat.zero_le c) (by simpa using hc) hpar hz
    (fun j _ hj => hfirst j hj) hok
  obtain ⟨h1, h2, h3, h4, h5, h6, h7⟩ := hs
  unfold wait wait_pass
  rw [acquire_proc]
  generalize wait_scan ok p addr k.proc.length 0 false (acquire spinlock.wait_lock k) = r at *
  obtain ⟨r1, r2, r3⟩ := r
  simp only at h1 h2 h3 h4 h5 h6 h7
  subst h1
  refine ⟨r3, rfl, h2, h3, h4, ?_, h6, h7⟩
  rw [h5]
  simp

theorem freeproc_slot (c : Nat) (k : Kernel) (j : Nat) :
    (freeproc c k).slot j =
      if j = c ∧ c < k.proc.length then
        { k.slot j with
          trapframe := none, pagetable := 0, sz := 0, pid := 0, parent := none,
          name := pname.empty, chan := Chan.null, killed := 0, xstate := 0,
          state := procstate.UNUSED, init_ticks := 0 }
      else k.slot j := by
  unfold freeproc
  rw [slot_upd]

theorem slot_congr {k k1 : Kernel} (h : k1.proc = k.proc) (j : Nat) : k1.slot j = k.slot j := by
  unfold Kernel.slot
  rw [h]

/-! ## allocproc -/

theorem allocproc_scan_found : ∀ (n i0 : Nat) (k : Kernel) (i : Nat),
    i0 ≤ i → i < i0 + n → (k.slot i).state = procstate.UNUSED →
    (∀ j, i0 ≤ j → j < i → (k.slot j).state ≠ procstate.UNUSED) →
    (allocproc_scan n i0 k).1 = some i ∧
    (allocproc_scan n i0 k).2.proc = k.proc ∧
    (allocproc_scan n i0 k).2.initproc = k.initproc ∧
    (allocproc_scan n i0 k).2.nextpid = k.nextpid ∧
    (allocproc_scan n i0 k).2.held = spinlock.plock i :: k.held ∧
    (allocproc_scan n i0 k).2.fs = k.fs ∧
    (allocproc_scan n i0 k).2.out = k.out := by
  intro n
  induction n with
  | zero => intro i0 k i h1 h2; omega
  | succ n ih =>
    intro i0 k i h1 h2 hU hfirst
    by_cases hi : i = i0
    · subst hi
      simp only [allocproc_scan, slot_acquire, hU, if_true]
      exact ⟨trivial, rfl, rfl, rfl, rfl, rfl, rfl⟩
    · have hne : (k.slot i0).state ≠ procstate.UNUSED := hfirst i0 (le_refl i0) (by omega)
      simp only [allocproc_scan, slot_acquire, hne, if_false]
      have hrec := ih (i0 + 1) (release (spinlock.plock i0) (acquire (spinlock.plock i0) k)) i
        (by omega) (by omega) hU (fun j hj1 hj2 => hfirst j (by omega) hj2)
      have hheld : (release (spinlock.plock i0) (acquire (spinlock.plock i0) k)).held = k.held := by
        simp
      rw [hheld] at hrec
      exact hrec

theorem allocproc_scan_none : ∀ (n i0 : Nat) (k : Kernel),
    (∀ j, i0 ≤ j → j < i0 + n → (k.slot j).state ≠ procstate.UNUSED) →
    (allocproc_scan n i0 k).1 = none ∧ (allocproc_scan n i0 k).2.proc = k.proc ∧
    Frame k (allocproc_scan n i0 k).2 := by
  intro n
  induction n with
  | zero => intro i0 k _; exact ⟨rfl, rfl, frame_refl k⟩
  | succ n ih =>
    intro i0 k h
    have hne : (k.slot i0).state ≠ procstate.UNUSED := h i0 (le_refl i0) (by omega)
    simp only [allocproc_scan, slot_acquire, hne, if_false]
    obtain ⟨ha, hb, hc⟩ := ih (i0 + 1) (release (spinlock.plock i0) (acquire (spinlock.plock i0) k))
      (fun j hj1 hj2 => h j (by omega) (by omega))
    exact ⟨ha, hb, frame_trans (frame_acq_rel _ k) hc⟩

theorem allocproc_full (c : Consts) (e : AllocExt) (k : Kernel)
    (h : ∀ j, j < k.proc.length → (k.slot j).state ≠ procstate.UNUSED) :
    (allocproc c e k).1 = none ∧ (allocproc c e k).2.proc = k.proc ∧
    Frame k (allocproc c e k).2 := by
  obtain ⟨h1, h2, h3⟩ := allocproc_scan_none k.proc.length 0 k
    (fun j _ hj => h j (by simpa using hj))
  unfold allocproc
  generalize allocproc_scan k.proc.length 0 k = r at *
  obtain ⟨r1, k1⟩ := r
  simp only at h1 h2 h3
  subst h1
  exact ⟨rfl, h2, h3⟩

theorem allocproc_ok (c : Consts) (e : AllocExt) (k : Kernel) (i : Nat) (tf : trapframe)
    (hi : i < k.proc.length) (hU : (k.slot i).state = procstate.UNUSED)
    (hfirst : ∀ j, j < i → (k.slot j).state ≠ procstate.UNUSED)
    (hk : e.kalloc = some tf) (hpt : proc_pagetable e ≠ 0) :
    (allocproc c e k).1 = some i ∧
    (allocproc c e k).2.proc.length = k.proc.length ∧
    (allocproc c e k).2.initproc = k.initproc ∧
    (allocproc c e k).2.nextpid = wrap_int (k.nextpid + 1) ∧
    (allocproc c e k).2.held = spinlock.plock i :: k.held ∧
    (allocproc c e k).2.fs = k.fs ∧
    (allocproc c e k).2.out = k.out ∧
    ∀ j, (allocproc c e k).2.slot j =
      if j = i then
        { k.slot i with
          state := procstate.USED, pid := k.nextpid, trapframe := some tf,
          pagetable := proc_pagetable e,
          context := { context.zero with ra := c.forkret, sp := (k.slot i).kstack + c.PGSIZE } }
      else k.slot j := by
  obtain ⟨h1, h2, h3, h4, h5, h6, h7⟩ := allocproc_scan_found k.proc.length 0 k i
    (Nat.zero_le i) (by simpa using hi) hU (fun j _ hj => hfirst j hj)
  unfold allocproc
  generalize allocproc_scan k.proc.length 0 k = r at *
  obtain ⟨r1, k1⟩ := r
  simp only at h1 h2 h3 h4 h5 h6 h7
  subst h1
  have hlen1 : i < k1.proc.length := by rw [h2]; exact hi
  have hs1 : ∀ j, k1.slot j = k.slot j := slot_congr h2
  simp only [allocpid, hk, hpt, if_false]
  refine ⟨trivial, ?_, ?_, ?_, ?_, ?_, ?_, fun j => ?_⟩
  · simp [Kernel.upd, h2]
  · simp [Kernel.upd, h3]
  · simp [Kernel.upd, h4, release, acquire]
  · simp [Kernel.upd, h5, release, acquire]
  · simp [Kernel.upd, h6, release, acquire]
  · simp [Kernel.upd, h7, release, acquire]
  · by_cases hji : j = i
    · subst hji
      simp only [slot_upd, upd_length, if_true, true_and]
      have hl : j < (release spinlock.pid_lock
          { acquire spinlock.pid_lock k1 with
            nextpid := wrap_int ((acquire spinlock.pid_lock k1).nextpid + 1) }).proc.length := hlen1
      simp only [hl, if_true]
      have hs : (release spinlock.pid_lock
          { acquire spinlock.pid_lock k1 with
            nextpid := wrap_int ((acquire spinlock.pid_lock k1).nextpid + 1) }).slot j = k.slot j := hs1 j
      rw [hs]
      simp [h4, context.zero]
    · simp only [slot_upd, hji, false_and, if_false]
      exact hs1 j

/-! ## fork -/

theorem safestrcpy_self (n : pname) : safestrcpy n 16 = n := by
  apply Subtype.ext
  have h := n.property
  simp only [safestrcpy]
  exact List.take_of_length_le (by omega)

theorem dup_files_open : ∀ (ps cs : List (Option Nat)) (idx f : Nat),
    ps[idx]? = some (some f) → (dup_files ps cs)[idx]? = some (some f) := by
  intro ps
  induction ps with
  | nil => intro cs idx f h; simp at h
  | cons a ps ih =>
    intro cs idx f h
    cases idx with
    | zero =>
      simp only [List.getElem?_cons_zero, Option.some.injEq] at h
      subst h
      simp [dup_files]
    | succ idx =>
      simp only [List.getElem?_cons_succ] at h
      cases a with
      | none => simp only [dup_files, List.getElem?_cons_succ]; exact ih _ _ _ h
      | some g => simp only [dup_files, List.getElem?_cons_succ]; exact ih _ _ _ h

theorem fork_ok (c : Consts) (e : AllocExt) (now p : Nat) (k : Kernel) (i : Nat)
    (tf ptf : trapframe)
    (hlive : (k.slot p).state ≠ procstate.UNUSED)
    (hptf : (k.slot p).trapframe = some ptf)
    (hi : i < k.proc.length) (hU : (k.slot i).state = procstate.UNUSED)
    (hfirst : ∀ j, j < i → (k.slot j).state ≠ procstate.UNUSED)
    (hk : e.kalloc = some tf) (hpt : proc_pagetable e ≠ 0) :
    ∃ k1, fork c e true now p k = some (k.nextpid, k1) ∧
      k1.proc.length = k.proc.length ∧ k1.initproc = k.initproc ∧
      k1.nextpid = wrap_int (k.nextpid + 1) ∧ k1.held = k.held ∧
      k1.fs = k.fs ++ ((k.slot p).ofile.filterMap id).map fs_call.filedup ++
        [fs_call.idup (k.slot p).cwd] ∧
      k1.out = k.out ∧
      ∀ j, k1.slot j =
        if j = i then
          { k.slot i with
            state := procstate.RUNNABLE, pid := k.nextpid, parent := some p,
            sz := (k.slot p).sz, trapframe := some { ptf with a0 := 0 },
            pagetable := proc_pagetable e,
            context := { context.zero with ra := c.forkret, sp := (k.slot i).kstack + c.PGSIZE },
            ofile := dup_files (k.slot p).ofile (k.slot i).ofile, cwd := (k.slot p).cwd,
            name := (k.slot p).name, init_ticks := now, run_time := 0, last_run_start := 0,
            context_switches := 0 }
        else k.slot j := by
  obtain ⟨h1, h2, h3, h4, h5, h6, h7, h8⟩ := allocproc_ok c e k i tf hi hU hfirst hk hpt
  have hpi : p ≠ i := by
    intro hcon
    rw [hcon] at hlive
    exact hlive hU
  unfold fork
  generalize allocproc c e k = r at *
  obtain ⟨r1, k1⟩ := r
  simp only at h1 h2 h3 h4 h5 h6 h7 h8
  subst h1
  have hi1 : i < k1.proc.length := by rw [h2]; exact hi
  have hp1 : k1.slot p = k.slot p := by rw [h8 p, if_neg hpi]
  have hi8 := h8 i
  rw [if_pos rfl] at hi8
  simp only [Bool.true_eq_false, if_false, slot_upd, hpi, false_and, hp1, hptf, true_and,
    hi1, if_true, hi8, slot_release, slot_acquire, slot_log_fs, upd_length, acquire_proc,
    release_proc, log_fs_proc]
  refine ⟨_, rfl, ?_, ?_, ?_, ?_, ?_, ?_, fun j => ?_⟩
  · simp [Kernel.upd, h2]
  · simp [Kernel.upd, h3]
  · simp [Kernel.upd, h4]
  · simp [Kernel.upd, h5]
  · simp [Kernel.upd, h6]
  · simp [Kernel.upd, h7]
  · by_cases hji : j = i
    · subst hji
      simp only [slot_release, slot_acquire, slot_upd, slot_log_fs, upd_length, acquire_proc,
        release_proc, log_fs_proc, hi1, and_self, if_true, hi8]
      simp [safestrcpy_self]
    · simp only [slot_release, slot_acquire, slot_upd, slot_log_fs, hji, false_and, if_false]
      rw [h8 j, if_neg hji]

/-! ## The pid invariant -/

theorem live_pid_wake1 (me : Option Nat) (c : Chan) (j : Nat) (q : proc) :
    live_pid (wake1 me c j q) = live_pid q := by
  unfold wake1
  split_ifs with h
  · simp [live_pid, h.2.1]
  · rfl

theorem live_pid_zero : live_pid proc.zero = none := rfl

theorem wakeup_shrinks (me : Option Nat) (c : Chan) (k : Kernel) : Shrinks k (wakeup me c k) := by
  obtain ⟨hF, hS⟩ := wakeup_spec me c k
  refine ⟨hF.1, hF.2.2.1, fun j => Or.inr ?_⟩
  rw [wakeup_slot, live_pid_wake1]

theorem reparent_shrinks (me : Option Nat) (p : Nat) (k : Kernel) :
    Shrinks k (reparent me p k) := by
  obtain ⟨hF, hS⟩ := reparent_spec me p k
  refine ⟨hF.1, hF.2.2.1, fun j => Or.inr ?_⟩
  rw [hS j]
  have h1 : ∀ q, live_pid ((if has_child p k.proc.length 0 k = true then
      wake1 me (Chan.ofPtr k.initproc) j else id) q) = live_pid q := by
    intro q
    split_ifs
    · exact live_pid_wake1 _ _ _ _
    · rfl
  rw [h1]
  split_ifs <;> rfl

theorem wrap_int_succ (n : Int) (h1 : -2147483649 ≤ n) (h2 : n < 2147483647) :
    wrap_int (n + 1) = n + 1 := by
  unfold wrap_int
  rw [Int.emod_eq_of_lt (by omega) (by omega)]
  omega

theorem find_loop_found (pid : Int) : ∀ (n i0 : Nat) (k : Kernel) (r : Nat),
    i0 ≤ r → r < i0 + n → (k.slot r).pid = pid →
    (∀ j, i0 ≤ j → j < r → (k.slot j).pid ≠ pid) →
    (find_loop pid n i0 k).1 = some r ∧
    (find_loop pid n i0 k).2.proc = k.proc ∧
    (find_loop pid n i0 k).2.initproc = k.initproc ∧
    (find_loop pid n i0 k).2.nextpid = k.nextpid ∧
    (find_loop pid n i0 k).2.held = spinlock.plock r :: k.held ∧
    (find_loop pid n i0 k).2.fs = k.fs ∧
    (find_loop pid n i0 k).2.out = k.out := by
  intro n
  induction n with
  | zero => intro i0 k r h1 h2; omega
  | succ n ih =>
    intro i0 k r h1 h2 hpid hfirst
    by_cases hr : r = i0
    · subst hr
      simp only [find_loop, slot_acquire, hpid, if_true]
      exact ⟨trivial, rfl, rfl, rfl, rfl, rfl, rfl⟩
    · have hne : (k.slot i0).pid ≠ pid := hfirst i0 (le_refl i0) (by omega)
      simp only [find_loop, slot_acquire, hne, if_false]
      have hrec := ih (i0 + 1) (release (spinlock.plock i0) (acquire (spinlock.plock i0) k)) r
        (by omega) (by omega) hpid (fun j hj1 hj2 => hfirst j (by omega) hj2)
      have hheld : (release (spinlock.plock i0) (acquire (spinlock.plock i0) k)).held = k.held := by
        simp
      rw [hheld] at hrec
      exact hrec

theorem ps_pt_invalid_entry (c : Consts) (ok : Nat → Nat → Nat → Bool) (mem : Nat → Nat)
    (me : Nat) (pid : Int) (table addr level : Nat) (k : Kernel) (r : Nat)
    (hlevel : level ≤ 2) (haddr : addr ≤ c.MAXVA)
    (hr : r < k.proc.length) (hpid : (k.slot r).pid = pid)
    (hfirst : ∀ j, j < r → (k.slot j).pid ≠ pid)
    (hwalk : ps_pt_walk c mem addr (2 - level) 2 (k.slot r).pagetable = none) :
    (ps_pt c ok mem me pid table addr level k).1 = -1 ∧
    (ps_pt c ok mem me pid table addr level k).2.held = spinlock.plock r :: k.held ∧
    (ps_pt c ok mem me pid table addr level k).2.proc = k.proc := by
  obtain ⟨h1, h2, _, _, h5, _, _⟩ := find_loop_found pid k.proc.length 0 k r
    (Nat.zero_le r) (by simpa using hr) hpid (fun j _ hj => hfirst j hj)
  unfold ps_pt
  rw [if_neg (by omega), if_neg (by omega)]
  unfold find_proc_by_pid
  generalize find_loop pid k.proc.length 0 k = res at *
  obtain ⟨r1, k1⟩ := res
  simp only at h1 h2 h5
  subst h1
  simp only [slot_congr h2, hwalk]
  exact ⟨trivial, h5, h2⟩

theorem ps_pt_copies (c : Consts) (ok : Nat → Nat → Nat → Bool) (mem : Nat → Nat)
    (me : Nat) (pid : Int) (table addr level : Nat) (k : Kernel) (r pt : Nat)
    (hlevel : level ≤ 2) (haddr : addr ≤ c.MAXVA)
    (hr : r < k.proc.length) (hpid : (k.slot r).pid = pid)
    (hfirst : ∀ j, j < r → (k.slot j).pid ≠ pid)
    (hwalk : ps_pt_walk c mem addr (2 - level) 2 (k.slot r).pagetable = some pt)
    (hok : ok (k.slot me).pagetable table PT_SIZE = true) :
    (ps_pt c ok mem me pid table addr level k).1 = 0 ∧
    (ps_pt c ok mem me pid table addr level k).2.out =
      k.out ++ [⟨(k.slot me).pagetable, table, read_bytes mem pt PT_SIZE⟩] ∧
    (ps_pt c ok mem me pid table addr level k).2.held = k.held ∧
    (ps_pt c ok mem me pid table addr level k).2.proc = k.proc := by
  obtain ⟨h1, h2, _, _, h5, _, h7⟩ := find_loop_found pid k.proc.length 0 k r
    (Nat.zero_le r) (by simpa using hr) hpid (fun j _ hj => hfirst j hj)
  have hlen : (read_bytes mem pt PT_SIZE).length = PT_SIZE := by simp [read_bytes]
  unfold ps_pt
  rw [if_neg (by omega), if_neg (by omega)]
  unfold find_proc_by_pid
  generalize find_loop pid k.proc.length 0 k = res at *
  obtain ⟨r1, k1⟩ := res
  simp only at h1 h2 h5 h7
  subst h1
  simp only [slot_congr h2, hwalk, copyout, hlen, hok, if_true]
  refine ⟨trivial, ?_, ?_, h2⟩
  · simp [h7]
  · simp [h5]

theorem ps_pt_walk_root (c : Consts) (mem : Nat → Nat) (addr root : Nat) :
    ps_pt_walk c mem addr 2 2 root = some root := by
  simp [ps_pt_walk]

theorem ps_pt_walk_middle (c : Consts) (mem : Nat → Nat) (addr root : Nat)
    (h2 : read64 mem (root + 8 * c.PX 2 addr) &&& c.PTE_V ≠ 0) :
    ps_pt_walk c mem addr 1 2 root =
      some (c.PTE2PA (read64 mem (root + 8 * c.PX 2 addr))) := by
  simp [ps_pt_walk, h2]

theorem ps_pt_walk_inner (c : Consts) (mem : Nat → Nat) (addr root : Nat)
    (h2 : read64 mem (root + 8 * c.PX 2 addr) &&& c.PTE_V ≠ 0)
    (h1 : read64 mem (c.PTE2PA (read64 mem (root + 8 * c.PX 2 addr)) + 8 * c.PX 1 addr)
      &&& c.PTE_V ≠ 0) :
    ps_pt_walk c mem addr 0 2 root =
      some (c.PTE2PA (read64 mem
        (c.PTE2PA (read64 mem (root + 8 * c.PX 2 addr)) + 8 * c.PX 1 addr))) := by
  simp [ps_pt_walk, h2, h1]

/-! ## Reparenting -/

theorem parent_lt_length (k : Kernel) (j p : Nat) (h : (k.slot j).parent = some p) :
    j < k.proc.length := by
  by_contra hcon
  rw [slot_of_ge k (Nat.le_of_not_lt hcon)] at h
  exact absurd h (by simp [proc.zero])

theorem has_child_of_exists (p : Nat) (k : Kernel) (h : ∃ j, (k.slot j).parent = some p) :
    has_child p k.proc.length 0 k = true := by
  obtain ⟨j, hj⟩ := h
  rw [has_child_iff]
  exact ⟨j, Nat.zero_le j, by simpa using parent_lt_length k j p hj, hj⟩

theorem reparented_of_slots (p : Nat) (k k1 : Kernel) (hp : some p ≠ k.initproc)
    (hpar : ∀ j, (k1.slot j).parent =
      if (k.slot j).parent = some p then k.initproc else (k.slot j).parent)
    (hwake : ∀ i, k.initproc = some i → (∃ j, (k.slot j).parent = some p) →
      (k.slot i).state = procstate.SLEEPING → (k.slot i).chan = Chan.ofProc i →
      (k1.slot i).state = procstate.RUNNABLE) :
    Reparented p k k1 := by
  refine ⟨fun j hj => ?_, fun j => ?_, fun j hj => ?_, hwake⟩
  · rw [hpar j, if_pos hj]
  · rw [hpar j]
    split_ifs with h
    · exact fun hcon => hp hcon.symm
    · exact h
  · rw [hpar j, if_neg hj]

theorem reparent_reparented (p : Nat) (k : Kernel) (hp : some p ≠ k.initproc) :
    Reparented p k (reparent (some p) p k) := by
  have hS := (reparent_spec (some p) p k).2
  have hw : ∀ (b : Bool) (j : Nat) (q : proc),
      ((if b = true then wake1 (some p) (Chan.ofPtr k.initproc) j else id) q).parent =
        q.parent := by
    intro b j q
    split_ifs
    · exact wake1_parent _ _ _ _
    · rfl
  refine reparented_of_slots p k _ hp (fun j => ?_) (fun i hi hex hs hc => ?_)
  · rw [hS j, hw]
    split_ifs <;> rfl
  · have hip : i ≠ p := by
      intro hcon
      rw [hi, hcon] at hp
      exact hp rfl
    rw [hS i, has_child_of_exists p k hex, if_pos rfl, hi]
    have hne : some i ≠ some p := fun hcon => hip (Option.some.inj hcon)
    split_ifs <;> simp [wake1, hne, hs, hc, Chan.ofPtr]

theorem exit_reparented (now p : Nat) (s : Int) (k : Kernel) (hp : some p ≠ k.initproc) :
    ∃ k1, exit now p s k = some k1 ∧ Reparented p k k1 := by
  obtain ⟨k1, h1, _, h3⟩ := exit_some now p s k hp
  refine ⟨k1, h1, ?_⟩
  have hw : ∀ (b : Bool) (j : Nat) (q : proc),
      ((if b = true then wake1 (some p) (Chan.ofPtr k.initproc) j else id) q).parent =
        q.parent := by
    intro b j q
    split_ifs
    · exact wake1_parent _ _ _ _
    · rfl
  refine reparented_of_slots p k k1 hp (fun j => ?_) (fun i hi hex hs hc => ?_)
  · rw [h3 j]
    by_cases hjp : j = p
    · subst hjp
      simp only [if_true]
      rw [exit_body_slot]
      simp only [if_true]
      by_cases hlt : j < k.proc.length
      · simp only [hlt, if_true]
      · have hz := slot_of_ge k (Nat.le_of_not_lt hlt)
        simp [hlt, hz, proc.zero]
    · rw [if_neg hjp, exit_body_slot, if_neg hjp, wake1_parent, hw]
      split_ifs <;> rfl
  · have hip : i ≠ p := by
      intro hcon
      rw [hi, hcon] at hp
      exact hp rfl
    have hne : some i ≠ some p := fun hcon => hip (Option.some.inj hcon)
    rw [h3 i, if_neg hip, exit_body_slot, if_neg hip, has_child_of_exists p k hex, if_pos rfl, hi]
    split_ifs <;> simp [wake1, hne, hs, hc, Chan.ofPtr]

/-! ## handle_ps -/

theorem drop_slot (k : Kernel) (i : Nat) (h : i < k.proc.length) :
    k.proc.drop i = k.slot i :: k.proc.drop (i + 1) := by
  rw [List.drop_eq_getElem_cons h]
  congr 1
  have := slot_of_lt k h
  rw [List.getElem?_eq_getElem h] at this
  exact Option.some.inj this

theorem in_use_of_ne {q : proc} (h : q.state ≠ procstate.UNUSED) : in_use q = true := by
  simp [in_use, h]

theorem in_use_of_eq {q : proc} (h : q.state = procstate.UNUSED) : ¬ in_use q = true := by
  simp [in_use, h]

theorem handle_ps_count_spec : ∀ (n i cnt : Nat) (k : Kernel), i + n = k.proc.length →
    handle_ps_count n i cnt k = cnt + ((k.proc.drop i).filter in_use).length := by
  intro n
  induction n with
  | zero =>
    intro i cnt k h
    have : k.proc.drop i = [] := List.drop_eq_nil_of_le (by omega)
    simp [handle_ps_count, this]
  | succ n ih =>
    intro i cnt k h
    rw [drop_slot k i (by omega)]
    by_cases hs : (k.slot i).state = procstate.UNUSED
    · rw [List.filter_cons_of_neg (in_use_of_eq hs)]
      simp only [handle_ps_count]
      rw [if_neg (not_not.mpr hs)]
      exact ih (i + 1) cnt k (by omega)
    · rw [List.filter_cons_of_pos (in_use_of_ne hs)]
      simp only [handle_ps_count]
      rw [if_pos hs, ih (i + 1) (cnt + 1) k (by omega), List.length_cons]
      omega

theorem handle_ps_loop_spec (ok : Nat → Nat → Nat → Bool) (me : Nat) (L : Int) (pids pt : Nat)
    (hok : ∀ d n, ok pt d n = true) :
    ∀ (n i cnt : Nat) (k : Kernel), i + n = k.proc.length → (k.slot me).pagetable = pt →
    (handle_ps_loop ok me L pids n i cnt k).1 =
      ((cnt + ((k.proc.drop i).filter in_use).length : Nat) : Int) ∧
    (handle_ps_loop ok me L pids n i cnt k).2.proc = k.proc ∧
    (handle_ps_loop ok me L pids n i cnt k).2.held = k.held ∧
    (handle_ps_loop ok me L pids n i cnt k).2.out =
      k.out ++ ps_list_writes pt pids cnt
        (((k.proc.drop i).filter in_use).take ((L - 1).toNat - cnt)) := by
  intro n
  induction n with
  | zero =>
    intro i cnt k h _
    have : k.proc.drop i = [] := List.drop_eq_nil_of_le (by omega)
    simp [handle_ps_loop, this, ps_list_writes]
  | succ n ih =>
    intro i cnt k h hpt
    rw [drop_slot k i (by omega)]
    by_cases hs : (k.slot i).state = procstate.UNUSED
    · rw [List.filter_cons_of_neg (in_use_of_eq hs)]
      simp only [handle_ps_loop, slot_acquire]
      rw [if_neg (not_not.mpr hs)]
      obtain ⟨h1, h2, h3, h4⟩ := ih (i + 1) cnt
        (release (spinlock.plock i) (acquire (spinlock.plock i) k)) (by simp; omega) hpt
      refine ⟨h1, h2, ?_, h4⟩
      rw [h3]; simp
    · rw [List.filter_cons_of_pos (in_use_of_ne hs)]
      simp only [handle_ps_loop, slot_acquire]
      rw [if_pos hs]
      by_cases hlt : ((cnt + 1 : Nat) : Int) < L
      · have hm : (L - 1).toNat - cnt = ((L - 1).toNat - (cnt + 1)) + 1 := by omega
        rw [if_pos hlt]
        simp only [copyout, hpt, hok, if_true, ne_eq, not_true_eq_false, if_false]
        obtain ⟨h1, h2, h3, h4⟩ := ih (i + 1) (cnt + 1)
          (release (spinlock.plock i)
            { acquire (spinlock.plock i) k with
              out := (acquire (spinlock.plock i) k).out ++
                [⟨pt, pids + (cnt + 1 - 1) * 4, int_bytes (k.slot i).pid⟩] })
          (by simp; omega) hpt
        refine ⟨?_, h2, ?_, ?_⟩
        · rw [h1]
          simp only [release_proc, List.length_cons]
          congr 1
          show cnt + 1 + ((k.proc.drop (i + 1)).filter in_use).length =
            cnt + (((k.proc.drop (i + 1)).filter in_use).length + 1)
          omega
        · rw [h3]; simp
        · rw [h4, hm]
          simp [ps_list_writes, List.enumFrom_cons]
      · have hm : (L - 1).toNat - cnt = 0 := by omega
        have hm1 : (L - 1).toNat - (cnt + 1) = 0 := by omega
        rw [if_neg hlt]
        obtain ⟨h1, h2, h3, h4⟩ := ih (i + 1) (cnt + 1)
          (release (spinlock.plock i) (acquire (spinlock.plock i) k)) (by simp; omega) hpt
        refine ⟨?_, h2, ?_, ?_⟩
        · rw [h1]
          simp only [release_proc, acquire_proc, List.length_cons]
          congr 1
          omega
        · rw [h3]; simp
        · rw [h4, hm, hm1]
          simp [ps_list_writes]

theorem ps_list_writes_get (pt pids : Nat) (l : List proc) (j : Nat) :
    (ps_list_writes pt pids 0 l)[j]? =
      (l[j]?).map (fun q => (⟨pt, pids + j * 4, int_bytes q.pid⟩ : ucopy)) := by
  unfold ps_list_writes
  rw [List.getElem?_map, List.getElem?_enumFrom]
  cases l[j]? <;> simp

theorem ps_list_writes_length (pt pids s : Nat) (l : List proc) :
    (ps_list_writes pt pids s l).length = l.length := by
  simp [ps_list_writes]

/-! ## handle_ps_info -/

theorem find_loop_absent (pid : Int) : ∀ (n i0 : Nat) (k : Kernel),
    (∀ j, i0 ≤ j → j < i0 + n → (k.slot j).pid ≠ pid) →
    (find_loop pid n i0 k).1 = none ∧ (find_loop pid n i0 k).2.proc = k.proc ∧
    Frame k (find_loop pid n i0 k).2 := by
  intro n
  induction n with
  | zero => intro i0 k _; exact ⟨rfl, rfl, frame_refl k⟩
  | succ n ih =>
    intro i0 k h
    have hne : (k.slot i0).pid ≠ pid := h i0 (le_refl i0) (by omega)
    simp only [find_loop, slot_acquire, hne, if_false]
    obtain ⟨ha, hb, hc⟩ := ih (i0 + 1)
      (release (spinlock.plock i0) (acquire (spinlock.plock i0) k))
      (fun j hj1 hj2 => h j (by omega) (by omega))
    exact ⟨ha, hb, frame_trans (frame_acq_rel _ k) hc⟩

theorem str_bytes_length (s : List Nat) (pad : Nat → Nat) (n : Nat) :
    (str_bytes s pad n).length = n := by
  simp [str_bytes]

theorem copyout_or_fail_eq (ok : Nat → Nat → Nat → Bool) (pt d : Nat) (src : List Nat)
    (p : Nat) (k : Kernel) (rest : Kernel → Int × Kernel) :
    copyout_or_fail ok pt d src p k rest =
      if ok pt d src.length = true then rest { k with out := k.out ++ [⟨pt, d, src⟩] }
      else (-1, release (spinlock.plock p) k) := by
  unfold copyout_or_fail copyout
  split_ifs <;> simp_all

theorem handle_ps_info_absent (x : InfoExt) (ok : Nat → Nat → Nat → Bool) (me : Nat)
    (pid : Int) (psinfo : Nat) (k : Kernel)
    (h : ∀ j, j < k.proc.length → (k.slot j).pid ≠ pid) :
    (handle_ps_info x ok me pid psinfo k).1 = -1 ∧
    (handle_ps_info x ok me pid psinfo k).2.out = k.out ∧
    (handle_ps_info x ok me pid psinfo k).2.proc = k.proc ∧
    (handle_ps_info x ok me pid psinfo k).2.held = k.held := by
  obtain ⟨h1, h2, h3⟩ := find_loop_absent pid k.proc.length 0 k
    (fun j _ hj => h j (by simpa using hj))
  unfold handle_ps_info find_proc_by_pid
  generalize find_loop pid k.proc.length 0 k = res at *
  obtain ⟨r1, k1⟩ := res
  simp only at h1 h2 h3
  subst h1
  exact ⟨rfl, h3.2.2.2.2.2, h2, h3.2.2.2.1⟩

theorem handle_ps_info_unused (x : InfoExt) (ok : Nat → Nat → Nat → Bool) (me : Nat)
    (pid : Int) (psinfo : Nat) (k : Kernel) (r : Nat)
    (hr : r < k.proc.length) (hpid : (k.slot r).pid = pid)
    (hfirst : ∀ j, j < r → (k.slot j).pid ≠ pid)
    (hU : (k.slot r).state = procstate.UNUSED) :
    (handle_ps_info x ok me pid psinfo k).1 = -2 ∧
    (handle_ps_info x ok me pid psinfo k).2.out = k.out ∧
    (handle_ps_info x ok me pid psinfo k).2.proc = k.proc ∧
    (handle_ps_info x ok me pid psinfo k).2.held = k.held := by
  obtain ⟨h1, h2, _, _, h5, _, h7⟩ := find_loop_found pid k.proc.length 0 k r
    (Nat.zero_le r) (by simpa using hr) hpid (fun j _ hj => hfirst j hj)
  unfold handle_ps_info find_proc_by_pid
  generalize find_loop pid k.proc.length 0 k = res at *
  obtain ⟨r1, k1⟩ := res
  simp only at h1 h2 h5 h7
  subst h1
  simp only [slot_congr h2, hU, if_true]
  refine ⟨trivial, h7, h2, ?_⟩
  rw [release_held, h5]
  simp

theorem neg_one_fst_ne_zero {k : Kernel} : ¬ ((-1 : Int), k).1 = 0 := by
  simp

theorem copyout_or_fail_spec (ok : Nat → Nat → Nat → Bool) (pt d : Nat) (src : List Nat)
    (p : Nat) (k : Kernel) (rest : Kernel → Int × Kernel) (n : Nat) (Q : Prop)
    (hn : src.length = n)
    (h : ∀ k1, ((rest k1).1 = 0 ∨ (rest k1).1 = -1) ∧ ((rest k1).1 = 0 → Q)) :
    ((copyout_or_fail ok pt d src p k rest).1 = 0 ∨
      (copyout_or_fail ok pt d src p k rest).1 = -1) ∧
    ((copyout_or_fail ok pt d src p k rest).1 = 0 → ok pt d n = true ∧ Q) := by
  rw [copyout_or_fail_eq, hn]
  by_cases hok : ok pt d n = true
  · rw [if_pos hok]
    exact ⟨(h _).1, fun h0 => ⟨hok, (h _).2 h0⟩⟩
  · rw [if_neg hok]
    exact ⟨Or.inr rfl, fun h0 => absurd h0 neg_one_fst_ne_zero⟩

theorem handle_ps_info_live (x : InfoExt) (ok : Nat → Nat → Nat → Bool) (me : Nat)
    (pid : Int) (psinfo : Nat) (k : Kernel) (r : Nat)
    (hr : r < k.proc.length) (hpid : (k.slot r).pid = pid)
    (hfirst : ∀ j, j < r → (k.slot j).pid ≠ pid)
    (hlive : (k.slot r).state ≠ procstate.UNUSED) :
    ((handle_ps_info x ok me pid psinfo k).1 = 0 ∨
      (handle_ps_info x ok me pid psinfo k).1 = -1) ∧
    ((handle_ps_info x ok me pid psinfo k).1 = 0 →
      ok (k.slot me).pagetable psinfo x.STATE_SIZE = true ∧
      ok (k.slot me).pagetable (psinfo + x.STATE_SIZE) 4 = true ∧
      ok (k.slot me).pagetable (psinfo + x.STATE_SIZE + 4) 4 = true ∧
      x.filecount ≠ -1 ∧
      ok (k.slot me).pagetable (psinfo + x.STATE_SIZE + 4 + 4) 4 = true ∧
      ok (k.slot me).pagetable (psinfo + x.STATE_SIZE + 4 + 4 + 4) x.NAME_SIZE = true ∧
      ok (k.slot me).pagetable (psinfo + x.STATE_SIZE + 4 + 4 + 4 + x.NAME_SIZE) 4 = true ∧
      ok (k.slot me).pagetable (psinfo + x.STATE_SIZE + 4 + 4 + 4 + x.NAME_SIZE + 4) 4 = true ∧
      ok (k.slot me).pagetable (psinfo + x.STATE_SIZE + 4 + 4 + 4 + x.NAME_SIZE + 4 + 4) 4
        = true) := by
  obtain ⟨h1, h2, _, _, _, _, _⟩ := find_loop_found pid k.proc.length 0 k r
    (Nat.zero_le r) (by simpa using hr) hpid (fun j _ hj => hfirst j hj)
  unfold handle_ps_info find_proc_by_pid
  generalize find_loop pid k.proc.length 0 k = res at *
  obtain ⟨r1, k1⟩ := res
  simp only at h1 h2
  subst h1
  simp only [slot_congr h2, hlive, if_false]
  refine copyout_or_fail_spec _ _ _ _ _ _ _ _ _ (str_bytes_length _ _ _) (fun k2 => ?_)
  refine copyout_or_fail_spec _ _ _ _ _ _ _ _ _ (int_bytes_length _) (fun k3 => ?_)
  refine copyout_or_fail_spec _ _ _ _ _ _ _ _ _ (int_bytes_length _) (fun k4 => ?_)
  by_cases hfc : x.filecount = -1
  · rw [if_pos hfc]
    exact ⟨Or.inr rfl, fun h0 => absurd h0 neg_one_fst_ne_zero⟩
  rw [if_neg hfc]
  suffices hs : ∀ (P : Prop) (v : Int), ((v = 0 ∨ v = -1) ∧ (v = 0 → P)) →
      ((v = 0 ∨ v = -1) ∧ (v = 0 → x.filecount ≠ -1 ∧ P)) from hs _ _ (by
    refine copyout_or_fail_spec _ _ _ _ _ _ _ _ _ (int_bytes_length _) (fun k5 => ?_)
    refine copyout_or_fail_spec _ _ _ _ _ _ _ _ _ (str_bytes_length _ _ _) (fun k6 => ?_)
    refine copyout_or_fail_spec _ _ _ _ _ _ _ _ _ (int_bytes_length _) (fun k7 => ?_)
    refine copyout_or_fail_spec _ _ _ _ _ _ _ _ _ (int_bytes_length _) (fun k8 => ?_)
    rw [copyout_or_fail_eq, int_bytes_length]
    by_cases hok : ok (k.slot me).pagetable
        (psinfo + x.STATE_SIZE + 4 + 4 + 4 + x.NAME_SIZE + 4 + 4) 4 = true
    · rw [if_pos hok]
      exact ⟨Or.inl rfl, fun _ => hok⟩
    · rw [if_neg hok]
      exact ⟨Or.inr rfl, fun h0 => absurd h0 neg_one_fst_ne_zero⟩)
  intro P v hv
  exact ⟨hv.1, fun h0 => ⟨hfc, hv.2 h0⟩⟩

/-! ## handle_ps_copy -/

theorem read_bytes_get (mem : Nat → Nat) (a n j : Nat) (h : j < n) :
    (read_bytes mem a n)[j]? = some (mem (a + j)) := by
  simp [read_bytes, List.getElem?_range h]

theorem target_bytes_get (c : Consts) (walkaddr : Nat → Nat → Nat) (mem : Nat → Nat)
    (pagetable addr n j : Nat) (h : j < n) :
    (target_bytes c walkaddr mem pagetable addr n)[j]? =
      some (mem (walkaddr pagetable ((addr + j) - (addr + j) % c.PGSIZE)
        + (addr + j) % c.PGSIZE)) := by
  simp [target_bytes, List.getElem?_range h]

theorem handle_ps_copy_found (ok : Nat → Nat → Nat → Bool) (walkaddr : Nat → Nat → Nat)
    (mem : Nat → Nat) (me : Nat) (pid : Int) (addr : Nat) (size : Int) (data : Nat)
    (k : Kernel) (r : Nat)
    (hr : r < k.proc.length) (hpid : (k.slot r).pid = pid)
    (hfirst : ∀ j, j < r → (k.slot j).pid ≠ pid)
    (hpa : walkaddr (k.slot r).pagetable addr ≠ 0)
    (hok : ok (k.slot me).pagetable data (size % 18446744073709551616).toNat = true) :
    (handle_ps_copy ok walkaddr mem me pid addr size data k).1 = 0 ∧
    (handle_ps_copy ok walkaddr mem me pid addr size data k).2.out =
      k.out ++ [⟨(k.slot me).pagetable, data,
        read_bytes mem (walkaddr (k.slot r).pagetable addr)
          (size % 18446744073709551616).toNat⟩] ∧
    (handle_ps_copy ok walkaddr mem me pid addr size data k).2.held = k.held := by
  obtain ⟨h1, h2, _, _, h5, _, h7⟩ := find_loop_found pid k.proc.length 0 k r
    (Nat.zero_le r) (by simpa using hr) hpid (fun j _ hj => hfirst j hj)
  have hlen : ∀ a n, (read_bytes mem a n).length = n := by simp [read_bytes]
  unfold handle_ps_copy find_proc_by_pid
  generalize find_loop pid k.proc.length 0 k = res at *
  obtain ⟨r1, k1⟩ := res
  simp only at h1 h2 h5 h7
  subst h1
  simp only [slot_congr h2, hpa, copyout, hlen, hok, if_true, if_false]
  refine ⟨trivial, ?_, ?_⟩
  · simp [h7]
  · simp [h5]

theorem handle_ps_copy_unmapped (ok : Nat → Nat → Nat → Bool) (walkaddr : Nat → Nat → Nat)
    (mem : Nat → Nat) (me : Nat) (pid : Int) (addr : Nat) (size : Int) (data : Nat)
    (k : Kernel) (r : Nat)
    (hr : r < k.proc.length) (hpid : (k.slot r).pid = pid)
    (hfirst : ∀ j, j < r → (k.slot j).pid ≠ pid)
    (hpa : walkaddr (k.slot r).pagetable addr = 0) :
    (handle_ps_copy ok walkaddr mem me pid addr size data k).1 = -1 ∧
    (handle_ps_copy ok walkaddr mem me pid addr size data k).2.out = k.out ∧
    (handle_ps_copy ok walkaddr mem me pid addr size data k).2.held = k.held := by
  obtain ⟨h1, h2, _, _, h5, _, h7⟩ := find_loop_found pid k.proc.length 0 k r
    (Nat.zero_le r) (by simpa using hr) hpid (fun j _ hj => hfirst j hj)
  unfold handle_ps_copy find_proc_by_pid
  generalize find_loop pid k.proc.length 0 k = res at *
  obtain ⟨r1, k1⟩ := res
  simp only at h1 h2 h5 h7
  subst h1
  simp only [slot_congr h2, hpa, if_true]
  refine ⟨trivial, ?_, ?_⟩
  · simp [h7]
  · simp [h5]

/-! ## The claims -/

/-- C1. Exit/wait round trip: let `c` be a process whose parent is `p`, and let
`k1` be the state when `c` has run `exit(s)` (so `c` is not init).  Then `c` is
ZOMBIE with exit status `s` and its pid unchanged; and if at that point `c` is
the first ZOMBIE child of `p` in table order, `addr` is not null and the
`copyout` succeeds, then `wait(addr)` called by `p` returns the pid of `c`,
copies out exactly the four bytes of `s` to `addr` in the address space of
`p`, and leaves the slot of `c` UNUSED. -/
theorem exit_wait_round_trip (ok : Nat → Nat → Nat → Bool) (now now1 c p addr : Nat)
    (s : Int) (k k1 : Kernel)
    (hpar : (k.slot c).parent = some p)
    (hex : exit now c s k = some k1)
    (hchild : (k1.slot c).parent = some p)
    (hfirst : ∀ j, j < c →
      ¬ ((k1.slot j).parent = some p ∧ (k1.slot j).state = procstate.ZOMBIE))
    (haddr : addr ≠ 0) (hok : ok (k1.slot p).pagetable addr 4 = true) :
    (k1.slot c).state = procstate.ZOMBIE ∧ (k1.slot c).xstate = s ∧
    (k1.slot c).pid = (k.slot c).pid ∧
    ∃ k2, wait ok now1 p addr k1 = some (WaitResult.ret (k.slot c).pid, k2) ∧
      k2.out = k1.out ++ [⟨(k1.slot p).pagetable, addr, int_bytes s⟩] ∧
      (k2.slot c).state = procstate.UNUSED := by
  have hc : c < k.proc.length := parent_lt_length k c p hpar
  obtain ⟨k1a, h1, h2, h3⟩ := exit_some now c s k (exit_not_init now c s k k1 hex)
  rw [hex] at h1
  simp only [Option.some.injEq] at h1
  subst h1
  have hslot := h3 c
  rw [if_pos rfl, exit_body_slot, if_pos rfl, if_pos hc] at hslot
  have hst : (k1.slot c).state = procstate.ZOMBIE := by rw [hslot]
  have hxs : (k1.slot c).xstate = s := by rw [hslot]
  have hpid : (k1.slot c).pid = (k.slot c).pid := by rw [hslot]
  have hc1 : c < k1.proc.length := parent_lt_length k1 c p hchild
  obtain ⟨k2, w1, w2, _, _, _, _, w7⟩ :=
    wait_reaps ok now1 p addr k1 c haddr hc1 hchild hst hfirst hok
  refine ⟨hst, hxs, hpid, k2, ?_, ?_, ?_⟩
  · rw [w1, hpid]
  · rw [w7, hxs]
  · rw [slot_congr w2, freeproc_slot, if_pos ⟨rfl, hc1⟩]

/-- A run of C1 on the example table: the process in slot 2 (pid 3, child of
the shell in slot 1) exits with status 5 and the shell reaps it. -/
theorem exit_wait_round_trip_witness :
    exit 50 2 5 ex_table = some ex_exited ∧ (ex_exited.slot 2).state = procstate.ZOMBIE ∧
      ∃ k2, wait (fun _ _ _ => true) 60 1 8000 ex_exited = some (WaitResult.ret 3, k2) ∧
        k2.out = [⟨2280652800, 8000, [5, 0, 0, 0]⟩] ∧
        (k2.slot 2).state = procstate.UNUSED := by
  have hex : exit 50 2 5 ex_table = some ex_exited := by decide
  obtain ⟨h1, _, _, k2, h4, h5, h6⟩ :=
    exit_wait_round_trip (fun _ _ _ => true) 50 60 2 1 8000 5 ex_table ex_exited
      (by decide) hex (by decide) (by decide) (by decide) rfl
  exact ⟨hex, h1, k2, h4, h5, h6⟩

/-- C2. Success of `fork`: let `p` be the calling process (in use, with a trap
frame `ptf`), let slot `i` be the first UNUSED slot and let the allocations of
`allocproc` and `uvmcopy` succeed.  Then `fork` returns the pid of the child
in slot `i`; the child is RUNNABLE, its parent is `p`, its `sz` is that of `p`,
its trap frame is `ptf` with `a0` set to 0, its name is that of `p`, every index
at which `p` has an open file holds the same file in the child, its `cwd` is
that of `p`, and `filedup` was called on every open file of `p` and `idup` on
its `cwd`; the record of `p` is unchanged. -/
theorem fork_success_postcondition (c : Consts) (e : AllocExt) (now p : Nat) (k : Kernel)
    (i : Nat) (tf ptf : trapframe)
    (hlive : (k.slot p).state ≠ procstate.UNUSED)
    (hptf : (k.slot p).trapframe = some ptf)
    (hi : i < k.proc.length) (hU : (k.slot i).state = procstate.UNUSED)
    (hfirst : ∀ j, j < i → (k.slot j).state ≠ procstate.UNUSED)
    (hk : e.kalloc = some tf) (hpt : proc_pagetable e ≠ 0) :
    ∃ k1, fork c e true now p k = some ((k1.slot i).pid, k1) ∧
      (k1.slot i).pid = k.nextpid ∧
      (k1.slot i).state = procstate.RUNNABLE ∧
      (k1.slot i).parent = some p ∧
      (k1.slot i).sz = (k.slot p).sz ∧
      (k1.slot i).trapframe = some { ptf with a0 := 0 } ∧
      (k1.slot i).name = (k.slot p).name ∧
      (∀ (idx f : Nat), (k.slot p).ofile[idx]? = some (some f) →
        (k1.slot i).ofile[idx]? = some (some f)) ∧
      (k1.slot i).cwd = (k.slot p).cwd ∧
      k1.fs = k.fs ++ ((k.slot p).ofile.filterMap id).map fs_call.filedup ++
        [fs_call.idup (k.slot p).cwd] ∧
      k1.slot p = k.slot p := by
  obtain ⟨k1, h1, _, _, _, _, h6, _, h8⟩ :=
    fork_ok c e now p k i tf ptf hlive hptf hi hU hfirst hk hpt
  have hpi : p ≠ i := fun hcon => hlive (by rw [hcon]; exact hU)
  have hsi := h8 i
  rw [if_pos rfl] at hsi
  refine ⟨k1, ?_, ?_, ?_, ?_, ?_, ?_, ?_, fun idx f hf => ?_, ?_, h6, ?_⟩
  · rw [h1, hsi]
  · rw [hsi]
  · rw [hsi]
  · rw [hsi]
  · rw [hsi]
  · rw [hsi]
  · rw [hsi]
  · rw [hsi]
    exact dup_files_open _ _ idx f hf
  · rw [hsi]
  · rw [h8 p, if_neg hpi]

/-- A run of C2 on the example table: the shell in slot 1 forks, the child
takes slot 3 and pid 4. -/
theorem fork_success_postcondition_witness :
    ∃ k1, fork ex_consts ex_ext true 70 1 ex_table = some (4, k1) ∧
      (k1.slot 3).state = procstate.RUNNABLE ∧ (k1.slot 3).parent = some 1 ∧
      (k1.slot 3).trapframe = some ⟨200, 16000, 0, 12, 13, 1, [14]⟩ ∧
      (k1.slot 3).ofile[2]? = some (some 2) ∧
      k1.slot 1 = ex_table.slot 1 := by
  obtain ⟨k1, h1, h2, h3, h4, _, h6, _, h8, _, _, h11⟩ :=
    fork_success_postcondition ex_consts ex_ext 70 1 ex_table 3 ⟨5, 5, 5, 5, 5, 5, [5, 5]⟩
      ⟨200, 16000, 11, 12, 13, 1, [14]⟩ (by decide) (by decide) (by decide) (by decide)
      (by decide) rfl (by decide)
  rw [h2] at h1
  exact ⟨k1, h1, h3, h4, h6, h8 2 2 (by decide), h11⟩

/-- C3, as claimed, fails when the counter holds the largest `int`: on the
example table with `nextpid = 2147483647`, `allocproc` claims slot 3 with that
pid and leaves `nextpid = -2147483648`, which is not the former value plus 1. -/
theorem allocproc_wraps_nextpid :
    (ex_last_pid.slot 3).state = procstate.UNUSED ∧
    (allocproc ex_consts ex_ext ex_last_pid).1 = some 3 ∧
    ((allocproc ex_consts ex_ext ex_last_pid).2.slot 3).pid = 2147483647 ∧
    (allocproc ex_consts ex_ext ex_last_pid).2.nextpid = -2147483648 ∧
    (allocproc ex_consts ex_ext ex_last_pid).2.nextpid ≠ ex_last_pid.nextpid + 1 := by
  decide

/-- C3, amended. `allocproc`: when slot `i` is the first UNUSED slot and the
trap-frame and page-table allocations succeed, `allocproc` returns slot `i`,
which is then USED with pid the former `nextpid`, with the new trap frame and
page table, with a saved context that is zero except `ra = forkret` and
`sp = kstack + PGSIZE`, and with its lock held; every other slot is unchanged.
The new `nextpid` is the former one plus 1 in 32-bit arithmetic: it has grown
by exactly 1 when the former value was an `int` below 2^31 - 1, and it is -2^31
when the former value was 2^31 - 1.  When no slot is UNUSED it returns none and
changes neither the table nor `nextpid`. -/
theorem allocproc_postcondition (c : Consts) (e : AllocExt) (k : Kernel) :
    (∀ i tf, i < k.proc.length → (k.slot i).state = procstate.UNUSED →
      (∀ j, j < i → (k.slot j).state ≠ procstate.UNUSED) →
      e.kalloc = some tf → proc_pagetable e ≠ 0 →
      (allocproc c e k).1 = some i ∧
      (allocproc c e k).2.slot i =
        { k.slot i with
          state := procstate.USED, pid := k.nextpid, trapframe := some tf,
          pagetable := proc_pagetable e,
          context :=
            { context.zero with ra := c.forkret, sp := (k.slot i).kstack + c.PGSIZE } } ∧
      (allocproc c e k).2.nextpid = wrap_int (k.nextpid + 1) ∧
      (-2147483648 ≤ k.nextpid → k.nextpid < 2147483647 →
        (allocproc c e k).2.nextpid = k.nextpid + 1) ∧
      (k.nextpid = 2147483647 → (allocproc c e k).2.nextpid = -2147483648) ∧
      (allocproc c e k).2.held = spinlock.plock i :: k.held ∧
      (allocproc c e k).2.proc.length = k.proc.length ∧
      ∀ j, j ≠ i → (allocproc c e k).2.slot j = k.slot j) ∧
    ((∀ j, j < k.proc.length → (k.slot j).state ≠ procstate.UNUSED) →
      (allocproc c e k).1 = none ∧ (allocproc c e k).2.proc = k.proc ∧
      (allocproc c e k).2.nextpid = k.nextpid ∧ (allocproc c e k).2.held = k.held) := by
  refine ⟨fun i tf hi hU hfirst hk hpt => ?_, fun hfull => ?_⟩
  · obtain ⟨h1, h2, _, h4, h5, _, _, h8⟩ := allocproc_ok c e k i tf hi hU hfirst hk hpt
    refine ⟨h1, ?_, h4, fun hlo hhi => ?_, fun hmax => ?_, h5, h2, fun j hj => ?_⟩
    · rw [h8 i, if_pos rfl]
    · rw [h4, wrap_int_succ k.nextpid (by omega) hhi]
    · rw [h4, hmax]
      decide
    · rw [h8 j, if_neg hj]
  · obtain ⟨h1, h2, h3⟩ := allocproc_full c e k hfull
    exact ⟨h1, h2, h3.2.2.1, h3.2.2.2.1⟩

/-- A run of C3: on the example table `allocproc` claims slot 3 with pid 4 and
`nextpid` goes from 4 to 5; on its first three slots alone, all in use, it
returns none. -/
theorem allocproc_postcondition_witness :
    ((allocproc ex_consts ex_ext ex_table).1 = some 3 ∧
      ((allocproc ex_consts ex_ext ex_table).2.slot 3).pid = 4 ∧
      (allocproc ex_consts ex_ext ex_table).2.nextpid = 5 ∧
      (allocproc ex_consts ex_ext ex_table).2.held = [spinlock.plock 3]) ∧
    ((allocproc ex_consts ex_ext { ex_table with proc := ex_table.proc.take 3 }).1 = none ∧
      (allocproc ex_consts ex_ext { ex_table with proc := ex_table.proc.take 3 }).2.nextpid
        = 4) := by
  obtain ⟨h1, h2, _, h3, _, h4, _, _⟩ :=
    (allocproc_postcondition ex_consts ex_ext ex_table).1 3 ⟨5, 5, 5, 5, 5, 5, [5, 5]⟩
      (by decide) (by decide) (by decide) rfl (by decide)
  obtain ⟨g1, _, g3, _⟩ :=
    (allocproc_postcondition ex_consts ex_ext
      { ex_table with proc := ex_table.proc.take 3 }).2 (by decide)
  exact ⟨⟨h1, by rw [h2]; rfl, h3 (by decide) (by decide), h4⟩, g1, g3⟩

/-- C5. `kill` on a live process: when `r` is the first record in table order
that carries `pid`, and `r` is not UNUSED, `kill(pid)` returns 0, sets
`killed` of `r` to 1, makes `r` RUNNABLE exactly when it was SLEEPING and
keeps its state otherwise, and changes no other field of `r`, no other record
and no lock. -/
theorem kill_live_process (pid : Int) (k : Kernel) (r : Nat)
    (hr : r < k.proc.length) (hpid : (k.slot r).pid = pid)
    (hfirst : ∀ j, j < r → (k.slot j).pid ≠ pid)
    (hlive : (k.slot r).state ≠ procstate.UNUSED) :
    (kill pid k).1 = 0 ∧
    (kill pid k).2.slot r =
      { k.slot r with
        killed := 1,
        state := if (k.slot r).state = procstate.SLEEPING then procstate.RUNNABLE
                 else (k.slot r).state } ∧
    ((kill pid k).2.slot r).state ≠ procstate.UNUSED ∧
    (∀ j, j ≠ r → (kill pid k).2.slot j = k.slot j) ∧
    (kill pid k).2.proc.length = k.proc.length ∧
    (kill pid k).2.held = k.held := by
  obtain ⟨h1, h2, h3⟩ := kill_loop_found pid k.proc.length 0 k r (Nat.zero_le r)
    (by simpa using hr) hr hpid (fun j _ hj => hfirst j hj)
  have hs := h3 r
  rw [if_pos rfl] at hs
  refine ⟨h1, hs, ?_, fun j hj => ?_, h2.1, h2.2.2.2.1⟩
  · show ((kill_loop pid k.proc.length 0 k).2.slot r).state ≠ procstate.UNUSED
    rw [hs]
    simp only
    split_ifs
    · decide
    · exact hlive
  · have := h3 j
    rw [if_neg hj] at this
    exact this

/-- A run of C5 on the example table: `kill(3)` wakes the sleeping process in
slot 2, and `kill(2)` leaves the running shell in slot 1 RUNNING. -/
theorem kill_live_process_witness :
    ((kill 3 ex_table).1 = 0 ∧ ((kill 3 ex_table).2.slot 2).killed = 1 ∧
      ((kill 3 ex_table).2.slot 2).state = procstate.RUNNABLE) ∧
    ((kill 2 ex_table).1 = 0 ∧ ((kill 2 ex_table).2.slot 1).killed = 1 ∧
      ((kill 2 ex_table).2.slot 1).state = procstate.RUNNING) := by
  obtain ⟨h1, h2, _⟩ :=
    kill_live_process 3 ex_table 2 (by decide) (by decide) (by decide) (by decide)
  obtain ⟨g1, g2, _⟩ :=
    kill_live_process 2 ex_table 1 (by decide) (by decide) (by decide) (by decide)
  exact ⟨⟨h1, by rw [h2], by rw [h2]; decide⟩, g1, by rw [g2], by rw [g2]; decide⟩

/-- C6 (the code departs from the claim). On the table of `procinit`, where
every slot is UNUSED and carries pid 0, `kill(0)` returns 0 and sets the
`killed` flag of slot 0, which stays UNUSED: the loop of `kill` compares pids
without looking at the state.  The flag survives `allocproc`: the next process
allocated in that slot is born with `killed = 1`. -/
theorem kill_zero_marks_unused_slot (c : Consts) (n : Nat) :
    ((procinit c (n + 1)).slot 0).state = procstate.UNUSED ∧
    ((procinit c (n + 1)).slot 0).killed = 0 ∧
    (kill 0 (procinit c (n + 1))).1 = 0 ∧
    ((kill 0 (procinit c (n + 1))).2.slot 0).state = procstate.UNUSED ∧
    ((kill 0 (procinit c (n + 1))).2.slot 0).killed = 1 ∧
    (allocproc ex_consts ex_ext (kill 0 (procinit ex_consts 3)).2).1 = some 0 ∧
    ((allocproc ex_consts ex_ext (kill 0 (procinit ex_consts 3)).2).2.slot 0).state =
      procstate.USED ∧
    ((allocproc ex_consts ex_ext (kill 0 (procinit ex_consts 3)).2).2.slot 0).killed = 1 := by
  have h0 := procinit_slot c (n + 1) 0 (Nat.succ_pos n)
  obtain ⟨h1, _, h3⟩ := kill_loop_found 0 (procinit c (n + 1)).proc.length 0
    (procinit c (n + 1)) 0 (le_refl 0) (by rw [procinit_length]; omega)
    (by rw [procinit_length]; omega) (by rw [h0]; rfl) (fun j h1 h2 => by omega)
  have hs := h3 0
  rw [if_pos rfl] at hs
  refine ⟨by rw [h0]; rfl, by rw [h0]; rfl, h1, ?_, ?_, by decide, by decide, by decide⟩
  · show ((kill_loop 0 (procinit c (n + 1)).proc.length 0 (procinit c (n + 1))).2.slot 0).state
      = procstate.UNUSED
    rw [hs, h0]
    rfl
  · show ((kill_loop 0 (procinit c (n + 1)).proc.length 0 (procinit c (n + 1))).2.slot 0).killed
      = 1
    rw [hs]

/-- C7. `wait` without children: when no record of the table has parent `p`,
`wait(addr)` called by `p` returns -1 at once (it does not sleep), and the
table, the `copyout` log and the locks held are as before. -/
theorem wait_without_children (ok : Nat → Nat → Nat → Bool) (now p addr : Nat) (k : Kernel)
    (h : ∀ j, j < k.proc.length → (k.slot j).parent ≠ some p) :
    ∃ k1, wait ok now p addr k = some (WaitResult.ret (-1), k1) ∧
      k1.proc = k.proc ∧ k1.out = k.out ∧ k1.held = k.held ∧ k1.fs = k.fs ∧
      k1.nextpid = k.nextpid := by
  refine ⟨_, wait_nochild ok now p addr k h, rfl, rfl, ?_, rfl, rfl⟩
  simp

/-- A run of C7 on the example table: the process in slot 2 has no child. -/
theorem wait_without_children_witness :
    ∃ k1, wait (fun _ _ _ => true) 60 2 8000 ex_table = some (WaitResult.ret (-1), k1) ∧
      k1.proc = ex_table.proc ∧ k1.out = [] := by
  obtain ⟨k1, h1, h2, h3, _⟩ :=
    wait_without_children (fun _ _ _ => true) 60 2 8000 ex_table (by decide)
  exact ⟨k1, h1, h2, h3⟩

/-- C8. Reparenting: for a process `p` other than init, after `reparent(p)`
called by `p`, and likewise in the state `exit` by `p` ends in, every record
whose parent was `p` has parent `initproc`, no record has parent `p`, the
parent of every other record is unchanged, and if some record was handed over
and init was SLEEPING on the channel `initproc`, init is RUNNABLE. -/
theorem reparent_orphans (now p : Nat) (s : Int) (k : Kernel) (hp : some p ≠ k.initproc) :
    Reparented p k (reparent (some p) p k) ∧
    ∃ k1, exit now p s k = some k1 ∧ Reparented p k k1 :=
  ⟨reparent_reparented p k hp, exit_reparented now p s k hp⟩

/-- A run of C8 on the example table: when the shell in slot 1 exits, its
child in slot 2 is handed to init in slot 0, which is woken. -/
theorem reparent_orphans_witness :
    ((reparent (some 1) 1 ex_table).slot 2).parent = some 0 ∧
    ((reparent (some 1) 1 ex_table).slot 0).state = procstate.RUNNABLE ∧
    ∃ k1, exit 50 1 0 ex_table = some k1 ∧ (k1.slot 2).parent = some 0 ∧
      (k1.slot 0).state = procstate.RUNNABLE := by
  obtain ⟨⟨h1, _, _, h4⟩, k1, g0, g1, _, _, g4⟩ :=
    reparent_orphans 50 1 0 ex_table (by decide)
  exact ⟨h1 2 (by decide), h4 0 rfl ⟨2, by decide⟩ (by decide) (by decide), k1, g0,
    g1 2 (by decide), g4 0 rfl ⟨2, by decide⟩ (by decide) (by decide)⟩

/-- C9. `wakeup(c)` called by `me`: every record other than the caller that
was SLEEPING with `chan = c` is the same record with state RUNNABLE, every
other record (not SLEEPING, asleep on another channel, or the caller) is
unchanged, and the table keeps its length; so no field other than `state`
changes in any record. -/
theorem wakeup_postcondition (me : Option Nat) (c : Chan) (k : Kernel) :
    (∀ j, (wakeup me c k).slot j =
      if some j ≠ me ∧ (k.slot j).state = procstate.SLEEPING ∧ (k.slot j).chan = c then
        { k.slot j with state := procstate.RUNNABLE }
      else k.slot j) ∧
    (wakeup me c k).proc.length = k.proc.length :=
  ⟨(wakeup_spec me c k).2, (wakeup_spec me c k).1.1⟩

/-- C10 (the code departs from the claim). On the example table, with the
example memory, `handle_ps_pt1` called by the shell for pid 3 and an address
whose root page-table entry is not valid returns -1 while the lock of slot 2,
taken by `find_proc_by_pid`, is still held: the early return inside the walk
of `ps_pt` has no `release`. -/
theorem ps_pt_returns_with_lock_held :
    ex_table.held = [] ∧
    (handle_ps_pt1 ex_consts (fun _ _ _ => true) ex_mem 1 3 9000 1073741824 ex_table).1 = -1 ∧
    (handle_ps_pt1 ex_consts (fun _ _ _ => true) ex_mem 1 3 9000 1073741824 ex_table).2.held =
      [spinlock.plock 2] := by
  obtain ⟨h1, h2, _⟩ := ps_pt_invalid_entry ex_consts (fun _ _ _ => true) ex_mem 1 3 9000
    1073741824 1 ex_table 2 (by decide) (by decide) (by decide) (by decide) (by decide)
    (by decide)
  exact ⟨rfl, h1, h2⟩

/-- C12: for a limit `L` other than -1 and a caller all of whose copyouts
succeed, `handle_ps` returns the number of records that are not UNUSED, the
value `handle_ps` returns for the limit -1 (which changes nothing); what it
writes to the caller is, in order, one copy per record of the first
`min(count, L-1)` such records: the `j`-th copy (from 0) exists exactly when
`j + 1 < L` and there is a `j`-th such record, and puts the four bytes of its
pid at `pids + 4 * j`.  The table and the locks held are as before. -/
theorem ps_list_count_and_fill (ok : Nat → Nat → Nat → Bool) (me : Nat) (L : Int)
    (pids : Nat) (k : Kernel) (hL : L ≠ -1)
    (hok : ∀ d n, ok (k.slot me).pagetable d n = true) :
    (handle_ps ok me L pids k).1 = ((live_records k).length : Int) ∧
    handle_ps ok me (-1) pids k = (((live_records k).length : Int), k) ∧
    (handle_ps ok me L pids k).2.out = k.out ++ ps_list_writes (k.slot me).pagetable pids 0
      ((live_records k).take (L - 1).toNat) ∧
    ((live_records k).take (L - 1).toNat).length
      = min (live_records k).length (L - 1).toNat ∧
    (∀ j : Nat, (ps_list_writes (k.slot me).pagetable pids 0
        ((live_records k).take (L - 1).toNat))[j]? =
      if (j : Int) + 1 < L then
        ((live_records k)[j]?).map
          (fun q => (⟨(k.slot me).pagetable, pids + j * 4, int_bytes q.pid⟩ : ucopy))
      else none) ∧
    (handle_ps ok me L pids k).2.proc = k.proc ∧
    (handle_ps ok me L pids k).2.held = k.held := by
  have hc := handle_ps_count_spec k.proc.length 0 0 k (by simp)
  obtain ⟨h1, h2, h3, h4⟩ := handle_ps_loop_spec ok me L pids (k.slot me).pagetable hok
    k.proc.length 0 0 k (by simp) rfl
  simp only [List.drop_zero, Nat.zero_add, Nat.sub_zero] at hc h1 h4
  refine ⟨?_, ?_, ?_, ?_, ?_, ?_, ?_⟩
  · unfold handle_ps
    rw [if_neg hL]
    exact h1
  · unfold handle_ps
    rw [if_pos rfl, hc]
    rfl
  · unfold handle_ps
    rw [if_neg hL]
    exact h4
  · rw [List.length_take]
    exact Nat.min_comm _ _
  · intro j
    rw [ps_list_writes_get, List.getElem?_take]
    by_cases hj : (j : Int) + 1 < L
    · rw [if_pos hj, if_pos (by omega)]
    · rw [if_neg hj, if_neg (by omega)]
      rfl
  · unfold handle_ps
    rw [if_neg hL]
    exact h2
  · unfold handle_ps
    rw [if_neg hL]
    exact h3

/-- C12 on the example table, whose records in use have pids 1, 2 and 3: with
limit 3 the call returns 3 and writes the pids 1 and 2. -/
theorem ps_list_count_and_fill_witness :
    (handle_ps (fun _ _ _ => true) 1 3 9000 ex_table).1 = 3 ∧
    (handle_ps (fun _ _ _ => true) 1 3 9000 ex_table).2.out =
      [⟨2280652800, 9000, [1, 0, 0, 0]⟩, ⟨2280652800, 9004, [2, 0, 0, 0]⟩] := by
  have h := ps_list_count_and_fill (fun _ _ _ => true) 1 3 9000 ex_table (by decide)
    (fun _ _ => rfl)
  refine ⟨h.1.trans (by decide), h.2.2.1.trans (by decide)⟩

/-- C13, as claimed, fails: on the example table no record has pid 99, and the
call for it returns -1; the record with pid 3 is in use, and the call for it by
a caller whose copyouts fail returns -1 as well. -/
theorem ps_info_absent_and_failed_copy_same_code :
    (∀ j, j < ex_table.proc.length → (ex_table.slot j).pid ≠ 99) ∧
    (handle_ps_info ex_info (fun _ _ _ => true) 1 99 9000 ex_table).1 = -1 ∧
    (ex_table.slot 2).pid = 3 ∧ (ex_table.slot 2).state ≠ procstate.UNUSED ∧
    (handle_ps_info ex_info (fun _ _ _ => false) 1 3 9000 ex_table).1 = -1 := by
  decide

/-- C13, amended: `handle_ps_info` has two failure codes.  When no record has
the pid it returns -1 and writes nothing; when the first record with the pid is
UNUSED it returns -2 (not -1) and writes nothing; when that record is in use it
returns 0 or -1, and 0 only if `filecount` did not fail and each of the eight
copyouts to the caller succeeded, so a failed copyout gives -1, the code of an
absent pid. -/
theorem ps_info_failure_codes (x : InfoExt) (ok : Nat → Nat → Nat → Bool) (me : Nat)
    (pid : Int) (psinfo : Nat) (k : Kernel) :
    ((∀ j, j < k.proc.length → (k.slot j).pid ≠ pid) →
      (handle_ps_info x ok me pid psinfo k).1 = -1 ∧
      (handle_ps_info x ok me pid psinfo k).2.out = k.out) ∧
    (∀ r, r < k.proc.length → (k.slot r).pid = pid →
      (∀ j, j < r → (k.slot j).pid ≠ pid) →
      ((k.slot r).state = procstate.UNUSED →
        (handle_ps_info x ok me pid psinfo k).1 = -2 ∧
        (handle_ps_info x ok me pid psinfo k).1 ≠ -1 ∧
        (handle_ps_info x ok me pid psinfo k).2.out = k.out) ∧
      ((k.slot r).state ≠ procstate.UNUSED →
        ((handle_ps_info x ok me pid psinfo k).1 = 0 ∨
          (handle_ps_info x ok me pid psinfo k).1 = -1) ∧
        ((handle_ps_info x ok me pid psinfo k).1 = 0 →
          ok (k.slot me).pagetable psinfo x.STATE_SIZE = true ∧
          ok (k.slot me).pagetable (psinfo + x.STATE_SIZE) 4 = true ∧
          ok (k.slot me).pagetable (psinfo + x.STATE_SIZE + 4) 4 = true ∧
          x.filecount ≠ -1 ∧
          ok (k.slot me).pagetable (psinfo + x.STATE_SIZE + 4 + 4) 4 = true ∧
          ok (k.slot me).pagetable (psinfo + x.STATE_SIZE + 4 + 4 + 4) x.NAME_SIZE = true ∧
          ok (k.slot me).pagetable (psinfo + x.STATE_SIZE + 4 + 4 + 4 + x.NAME_SIZE) 4
            = true ∧
          ok (k.slot me).pagetable (psinfo + x.STATE_SIZE + 4 + 4 + 4 + x.NAME_SIZE + 4) 4
            = true ∧
          ok (k.slot me).pagetable (psinfo + x.STATE_SIZE + 4 + 4 + 4 + x.NAME_SIZE + 4 + 4) 4
            = true))) := by
  refine ⟨fun h => ?_, fun r hr hpid hfirst => ⟨fun hU => ?_, fun hlive => ?_⟩⟩
  · have := handle_ps_info_absent x ok me pid psinfo k h
    exact ⟨this.1, this.2.1⟩
  · have := handle_ps_info_unused x ok me pid psinfo k r hr hpid hfirst hU
    refine ⟨this.1, ?_, this.2.1⟩
    rw [this.1]
    decide
  · exact handle_ps_info_live x ok me pid psinfo k r hr hpid hfirst hlive

/-- C13 on the example table: pid 99 is absent (-1), pid 0 is the pid of the
free slot 3 (-2), and pid 3 is in use, for which a caller whose copyouts fail
gets -1; nothing is written in the first two cases. -/
theorem ps_info_failure_codes_witness :
    ((handle_ps_info ex_info (fun _ _ _ => true) 1 99 9000 ex_table).1 = -1 ∧
      (handle_ps_info ex_info (fun _ _ _ => true) 1 99 9000 ex_table).2.out = ex_table.out) ∧
    ((handle_ps_info ex_info (fun _ _ _ => true) 1 0 9000 ex_table).1 = -2 ∧
      (handle_ps_info ex_info (fun _ _ _ => true) 1 0 9000 ex_table).1 ≠ -1 ∧
      (handle_ps_info ex_info (fun _ _ _ => true) 1 0 9000 ex_table).2.out = ex_table.out) ∧
    ((handle_ps_info ex_info (fun _ _ _ => false) 1 3 9000 ex_table).1 = 0 ∨
      (handle_ps_info ex_info (fun _ _ _ => false) 1 3 9000 ex_table).1 = -1) :=
  ⟨(ps_info_failure_codes ex_info (fun _ _ _ => true) 1 99 9000 ex_table).1 (by decide),
   ((ps_info_failure_codes ex_info (fun _ _ _ => true) 1 0 9000 ex_table).2 3
      (by decide) (by decide) (by decide)).1 (by decide),
   (((ps_info_failure_codes ex_info (fun _ _ _ => false) 1 3 9000 ex_table).2 2
      (by decide) (by decide) (by decide)).2 (by decide)).1⟩

/-- C11 fails in `handle_ps_info`: called on the example table for pid 3 (slot
2), it returns 0 and its acquisition of `wait_lock` is made while the lock of
slot 2, taken by `find_proc_by_pid`, is held. -/
theorem ps_info_takes_wait_lock_under_proc_lock :
    ex_table.held = [] ∧
    (handle_ps_info ex_info (fun _ _ _ => true) 1 3 9000 ex_table).1 = 0 ∧
    (spinlock.wait_lock, [spinlock.plock 2]) ∈
      (handle_ps_info ex_info (fun _ _ _ => true) 1 3 9000 ex_table).2.acquired := by
  decide

/-- C14, as claimed, fails in both directions on the example table and memory,
for the process with pid 3, whose root page table has the valid entry 0 and
the invalid entry 1.  For level 2 (the root table according to the claim, no
entry followed) and address 0, `ps_pt` follows root entry 0, finds the next
entry invalid and returns -1.  For level 0 and an address whose root entry
is entry 1, not valid, it returns 0 after copying the root table. -/
theorem ps_pt_level_two_is_not_the_root :
    (ps_pt ex_consts (fun _ _ _ => true) ex_mem 1 3 9000 0 2 ex_table).1 = -1 ∧
    (ps_pt ex_consts (fun _ _ _ => true) ex_mem 1 3 9000 0 2 ex_table).2.out = [] ∧
    ex_consts.PX 2 1073741824 = 1 ∧
    read64 ex_mem ((ex_table.slot 2).pagetable + 8 * 1) &&& ex_consts.PTE_V = 0 ∧
    (ps_pt ex_consts (fun _ _ _ => true) ex_mem 1 3 9000 1073741824 0 ex_table).1 = 0 ∧
    (ps_pt ex_consts (fun _ _ _ => true) ex_mem 1 3 9000 1073741824 0 ex_table).2.out =
      [⟨2280652800, 9000, read_bytes ex_mem (ex_table.slot 2).pagetable PT_SIZE⟩] := by
  obtain ⟨h1, h2, _⟩ := ps_pt_copies ex_consts (fun _ _ _ => true) ex_mem 1 3 9000
    1073741824 0 ex_table 2 (ex_table.slot 2).pagetable (by decide) (by decide) (by decide)
    (by decide) (by decide) (ps_pt_walk_root _ _ _ _) rfl
  exact ⟨by decide, by decide, by decide, by decide, h1, h2⟩

/-- C14, amended: the levels are numbered from the root.  For the first
record `r` with the pid, an address up to `MAXVA` and a successful copyout,
`ps_pt` at level 0 returns 0 and copies the `PT_SIZE` bytes (512 entries) of the
root table of `r`, following no entry; at level 1, when the root entry at index
`PX(2, addr)` is valid, it copies the table that entry refers to; at level 2,
when moreover the entry at index `PX(1, addr)` of that table is valid, it copies
the innermost table, the one this second entry refers to.  Each time the lock
of `r` is released again.  For a level above 2 it returns -1 and does
nothing. -/
theorem ps_pt_level_selection (c : Consts) (ok : Nat → Nat → Nat → Bool) (mem : Nat → Nat)
    (me : Nat) (pid : Int) (table addr : Nat) (k : Kernel) (r : Nat)
    (hr : r < k.proc.length) (hpid : (k.slot r).pid = pid)
    (hfirst : ∀ j, j < r → (k.slot j).pid ≠ pid)
    (haddr : addr ≤ c.MAXVA)
    (hok : ok (k.slot me).pagetable table PT_SIZE = true) :
    ((ps_pt c ok mem me pid table addr 0 k).1 = 0 ∧
      (ps_pt c ok mem me pid table addr 0 k).2.out =
        k.out ++ [⟨(k.slot me).pagetable, table,
          read_bytes mem (k.slot r).pagetable PT_SIZE⟩] ∧
      (ps_pt c ok mem me pid table addr 0 k).2.held = k.held) ∧
    (read64 mem ((k.slot r).pagetable + 8 * c.PX 2 addr) &&& c.PTE_V ≠ 0 →
      ((ps_pt c ok mem me pid table addr 1 k).1 = 0 ∧
        (ps_pt c ok mem me pid table addr 1 k).2.out =
          k.out ++ [⟨(k.slot me).pagetable, table,
            read_bytes mem (c.PTE2PA (read64 mem ((k.slot r).pagetable + 8 * c.PX 2 addr)))
              PT_SIZE⟩] ∧
        (ps_pt c ok mem me pid table addr 1 k).2.held = k.held) ∧
      (read64 mem (c.PTE2PA (read64 mem ((k.slot r).pagetable + 8 * c.PX 2 addr))
          + 8 * c.PX 1 addr) &&& c.PTE_V ≠ 0 →
        (ps_pt c ok mem me pid table addr 2 k).1 = 0 ∧
        (ps_pt c ok mem me pid table addr 2 k).2.out =
          k.out ++ [⟨(k.slot me).pagetable, table,
            read_bytes mem (c.PTE2PA (read64 mem
              (c.PTE2PA (read64 mem ((k.slot r).pagetable + 8 * c.PX 2 addr))
                + 8 * c.PX 1 addr))) PT_SIZE⟩] ∧
        (ps_pt c ok mem me pid table addr 2 k).2.held = k.held)) ∧
    (∀ level, 2 < level → ps_pt c ok mem me pid table addr level k = (-1, k)) ∧
    (∀ pt, (read_bytes mem pt PT_SIZE).length = 512 * 8) := by
  refine ⟨?_, fun h2 => ⟨?_, fun h1 => ?_⟩, fun level hl => ?_, fun pt => ?_⟩
  · obtain ⟨a, b, d, _⟩ := ps_pt_copies c ok mem me pid table addr 0 k r _ (by omega) haddr
      hr hpid hfirst (ps_pt_walk_root c mem addr _) hok
    exact ⟨a, b, d⟩
  · obtain ⟨a, b, d, _⟩ := ps_pt_copies c ok mem me pid table addr 1 k r _ (by omega) haddr
      hr hpid hfirst (ps_pt_walk_middle c mem addr _ h2) hok
    exact ⟨a, b, d⟩
  · obtain ⟨a, b, d, _⟩ := ps_pt_copies c ok mem me pid table addr 2 k r _ (by omega) haddr
      hr hpid hfirst (ps_pt_walk_inner c mem addr _ h2 h1) hok
    exact ⟨a, b, d⟩
  · unfold ps_pt
    rw [if_pos hl]
  · simp [read_bytes, PT_SIZE]

/-- C14 on the example table with a memory in which the root table of pid 3
(at 2280656896) refers through entry 0 to the table at 2280660992, and this one
through entry 0 to the table at 2280665088: levels 0, 1 and 2 at address 0
copy these three tables in this order. -/
theorem ps_pt_level_selection_witness :
    (ps_pt ex_consts (fun _ _ _ => true) ex_mem2 1 3 9000 0 0 ex_table).2.out =
      [⟨2280652800, 9000, read_bytes ex_mem2 2280656896 PT_SIZE⟩] ∧
    (ps_pt ex_consts (fun _ _ _ => true) ex_mem2 1 3 9000 0 1 ex_table).2.out =
      [⟨2280652800, 9000, read_bytes ex_mem2 2280660992 PT_SIZE⟩] ∧
    (ps_pt ex_consts (fun _ _ _ => true) ex_mem2 1 3 9000 0 2 ex_table).2.out =
      [⟨2280652800, 9000, read_bytes ex_mem2 2280665088 PT_SIZE⟩] ∧
    (ps_pt ex_consts (fun _ _ _ => true) ex_mem2 1 3 9000 0 2 ex_table).1 = 0 ∧
    ps_pt ex_consts (fun _ _ _ => true) ex_mem2 1 3 9000 0 3 ex_table = (-1, ex_table) := by
  have h := ps_pt_level_selection ex_consts (fun _ _ _ => true) ex_mem2 1 3 9000 0 ex_table 2
    (by decide) (by decide) (by decide) (by decide) rfl
  have e2 : ex_consts.PTE2PA (read64 ex_mem2 ((ex_table.slot 2).pagetable
      + 8 * ex_consts.PX 2 0)) = 2280660992 := by decide
  have v2 : read64 ex_mem2 ((ex_table.slot 2).pagetable + 8 * ex_consts.PX 2 0)
      &&& ex_consts.PTE_V ≠ 0 := by decide
  have e1 : ex_consts.PTE2PA (read64 ex_mem2 (2280660992 + 8 * ex_consts.PX 1 0))
      = 2280665088 := by decide
  have v1 : read64 ex_mem2 (2280660992 + 8 * ex_consts.PX 1 0) &&& ex_consts.PTE_V ≠ 0 := by
    decide
  have hb := h.2.1 v2
  rw [e2] at hb
  have hc := hb.2 v1
  rw [e1] at hc
  exact ⟨h.1.2.1, hb.1.2.1, hc.2.1, hc.1, h.2.2.1 3 (by decide)⟩

/-- C15 fails in `handle_ps_sleep_write`.  On the example table with pid 3
asleep in `write(1, 10, 4)`, the call by the shell returns `SYS_write` and writes
the descriptor and the length, but the third copy takes its four bytes from the
local variable `ptr`: they are the low bytes 10, 0, 0, 0 of the buffer address,
whatever the memory of the target holds (the function reads no memory).
Before that copy `fileread` is called on the open file 1 of the target, with the
address 10 and the length 4. -/
theorem ps_sleep_write_copies_pointer_bytes :
    (ex_blocked.slot 2).state = procstate.SLEEPING ∧ (ex_blocked.slot 2).pid = 3 ∧
    (handle_ps_sleep_write ex_info (fun _ _ _ => true) 1 3 9000 ex_blocked).map Prod.fst
      = some 16 ∧
    (handle_ps_sleep_write ex_info (fun _ _ _ => true) 1 3 9000 ex_blocked).map
        (fun r => r.2.out)
      = some [⟨2280652800, 9000, [1, 0, 0, 0]⟩, ⟨2280652800, 9004, [4, 0, 0, 0]⟩,
          ⟨2280652800, 9008, [10, 0, 0, 0]⟩] ∧
    (handle_ps_sleep_write ex_info (fun _ _ _ => true) 1 3 9000 ex_blocked).map
        (fun r => r.2.fs)
      = some [fs_call.fileread 1 10 4] := by
  decide

/-- C16 fails in `handle_ps_copy` for a range that crosses a page boundary.
On the example table, pid 3 has its pages 0 and 4096 mapped, to frames that
are not adjacent.  The call for address 0 and size 4097 returns 0, having
copied 4097 bytes of physical memory from the frame of page 0 on: the last of
them is byte 67 of the frame that follows in physical memory, while the byte
at virtual address 4096 of the target is 66. -/
theorem ps_copy_reads_past_the_frame :
    ex_walkaddr (ex_table.slot 2).pagetable 0 ≠ 0 ∧
    ex_walkaddr (ex_table.slot 2).pagetable 4096 ≠ 0 ∧
    (handle_ps_copy (fun _ _ _ => true) ex_walkaddr ex_mem3 1 3 0 4097 9000 ex_table).1 = 0 ∧
    (handle_ps_copy (fun _ _ _ => true) ex_walkaddr ex_mem3 1 3 0 4097 9000 ex_table).2.out =
      [⟨2280652800, 9000, read_bytes ex_mem3 2280669184 4097⟩] ∧
    (read_bytes ex_mem3 2280669184 4097)[4096]? = some 67 ∧
    (target_bytes ex_consts ex_walkaddr ex_mem3 (ex_table.slot 2).pagetable 0 4097)[4096]?
      = some 66 := by
  obtain ⟨h1, h2, _⟩ := handle_ps_copy_found (fun _ _ _ => true) ex_walkaddr ex_mem3 1 3 0
    4097 9000 ex_table 2 (by decide) (by decide) (by decide) (by decide) rfl
  refine ⟨by decide, by decide, h1, h2, ?_, ?_⟩
  · rw [read_bytes_get _ _ _ _ (by decide)]
    decide
  · rw [target_bytes_get _ _ _ _ _ _ _ (by decide)]
    decide

/-- C17 fails in `freeproc`, which resets `init_ticks` and leaves `run_time`,
`last_run_start` and `context_switches` of every record as they were.  On the
example table after the exit of pid 3 (slot 2, a ZOMBIE that ran from time 30
to time 50), `freeproc` gives an UNUSED slot with pid 0 and `init_ticks` 0 whose
`run_time` is 20 and `last_run_start` 30.  Such a slot is reached from `procinit`:
after the first five calls of `ex_ops` slot 1 is UNUSED with `run_time` 3. -/
theorem freeproc_keeps_run_accounting :
    (∀ i k, ((freeproc i k).slot i).run_time = (k.slot i).run_time ∧
      ((freeproc i k).slot i).last_run_start = (k.slot i).last_run_start ∧
      ((freeproc i k).slot i).context_switches = (k.slot i).context_switches) ∧
    (ex_exited.slot 2).state = procstate.ZOMBIE ∧
    ((freeproc 2 ex_exited).slot 2).state = procstate.UNUSED ∧
    ((freeproc 2 ex_exited).slot 2).pid = 0 ∧
    ((freeproc 2 ex_exited).slot 2).init_ticks = 0 ∧
    ((freeproc 2 ex_exited).slot 2).run_time = 20 ∧
    ((freeproc 2 ex_exited).slot 2).last_run_start = 30 ∧
    run ex_consts (ex_ops.take 5) (procinit ex_consts 3) = some ex_reaped ∧
    (ex_reaped.slot 1).state = procstate.UNUSED ∧
    (ex_reaped.slot 1).run_time = 3 := by
  refine ⟨fun i k => ?_, by decide, by decide, by decide, by decide, by decide, by decide,
    by decide, by decide, by decide⟩
  rw [freeproc_slot]
  split_ifs <;> exact ⟨rfl, rfl, rfl⟩

end Kproc
